import Mathlib

set_option maxHeartbeats 1000000

/-! Verification of the action-grammar parser and the agent execution loop of
the websight repository.

The parser definitions embed `parse_action` of `src/communicators/vlm.py` at
the level of character lists: Python `str.split`, `str.strip` and `int()` are
modelled by `pySplitL`, `stripChars` and `pyInt`, and the exceptions the
Python code can raise (`IndexError` from indexing a split, `ValueError` from
`int()`, from tuple unpacking and from the explicit `raise`) are modelled by
the `PyErr` error type of an `Except` result.

The loop definitions embed `main_loop` of `src/websight.py` together with its
helpers `is_task_completed`, `execute_browser_action` and
`update_state_and_actions`; the external collaborators (planner, decider,
vision refinement, browser, state summarizer, and the uncaught
`wait_for_timeout` browser call run after each successful iteration) are an
abstract `Behavior` supplying each call's outcome, indexed by the iteration
at which it is made (each run calls them deterministically in iteration
order, so this is fully general).  A failing `wait_for_timeout` is the one
exception that escapes the loop; `loopGo` reports it in its `Bool`
component. -/

namespace Websight

/-- The single-quote character (code point 39). -/
def squote : Char := Char.ofNat 39

/-- Python `s.startswith(pre)`, on character lists. -/
def isPre : List Char → List Char → Bool
  | [], _ => true
  | _ :: _, [] => false
  | p :: ps, c :: cs => p == c && isPre ps cs

/-- Python substring containment `sub in s` for a nonempty `sub`. -/
def hasSub (sub : List Char) : List Char → Bool
  | [] => isPre sub []
  | c :: cs => isPre sub (c :: cs) || hasSub sub cs

/-- Fuelled worker for Python `str.split(sep)` with nonempty separator
`s0 :: srest`: split at each leftmost non-overlapping occurrence.  The fuel
only makes the recursion structural; `pySplit` supplies enough of it. -/
def pySplitGo (s0 : Char) (srest : List Char) : Nat → List Char → List (List Char)
  | _, [] => [[]]
  | 0, l => [l]
  | fuel + 1, c :: cs =>
    if isPre (s0 :: srest) (c :: cs) then
      [] :: pySplitGo s0 srest fuel (cs.drop srest.length)
    else
      match pySplitGo s0 srest fuel cs with
      | [] => [[c]]
      | h :: t => (c :: h) :: t

/-- Python `s.split(sep)` for a nonempty separator `s0 :: srest`. -/
def pySplit (s0 : Char) (srest : List Char) (l : List Char) : List (List Char) :=
  pySplitGo s0 srest l.length l

/-- Python `s.split(sep)`, separator given as one list. -/
def pySplitL (sep l : List Char) : List (List Char) :=
  match sep with
  | [] => [l]
  | s0 :: srest => pySplit s0 srest l

/-- Python `s.strip(chars)` / `s.strip()`: drop the characters satisfying `p`
from both ends. -/
def stripChars (p : Char → Bool) (l : List Char) : List Char :=
  ((l.dropWhile p).reverse.dropWhile p).reverse

/-- The characters stripped by `coords.strip("()")`. -/
def parenChar (c : Char) : Bool := c == '(' || c == ')'

/-- ASCII whitespace stripped by `int()` and by `str.strip()` (Python also
strips some further Unicode whitespace; none of it can occur here). -/
def wsChar (c : Char) : Bool :=
  c == ' ' || c == '\t' || c == '\n' || c == '\r' || c == Char.ofNat 11 || c == Char.ofNat 12

/-- Decimal-digit test. -/
def isDigitC (c : Char) : Bool := 48 ≤ c.toNat && c.toNat ≤ 57

/-- Value of a decimal digit character. -/
def digVal (c : Char) : Nat := c.toNat - 48

/-- Digit run of a Python integer literal after its first digit: digits with
single underscores allowed between digits, accumulating the value. -/
def digRun : Nat → List Char → Option Nat
  | acc, [] => some acc
  | acc, c :: cs =>
    if isDigitC c then digRun (10 * acc + digVal c) cs
    else if c == '_' then
      match cs with
      | [] => none
      | d :: ds => if isDigitC d then digRun (10 * acc + digVal d) ds else none
    else none

/-- Unsigned part of a Python integer literal: at least one digit, then
`digRun`. -/
def digPart : List Char → Option Nat
  | [] => none
  | c :: cs => if isDigitC c then digRun (digVal c) cs else none

/-- The sign-and-digits part of `int(s)` after whitespace stripping, split
on the first character: an optional `+` or `-` sign, then the digits. -/
def pyIntCore (c : Char) (rest : List Char) : Option Int :=
  if c == '+' then (digPart rest).map (fun n => (n : Int))
  else if c == '-' then (digPart rest).map (fun n => -(n : Int))
  else (digPart (c :: rest)).map (fun n => (n : Int))

/-- Python `int(s)` in base 10: optional surrounding whitespace, optional
sign, digits with single underscores between them; `none` models the
`ValueError` raised on anything else. -/
def pyInt (s : List Char) : Option Int :=
  match stripChars wsChar s with
  | [] => none
  | c :: rest => pyIntCore c rest

/-- The exceptions `parse_action` and `vlm_call` can raise or catch:
`IndexError` from `split(...)[1]` on a missing marker (it carries no field
name and no input text), `ValueError` from `int()` (carrying the offending
literal), `ValueError` from unpacking `x, y = ...` (carrying neither), and
the explicit `ValueError(f"Invalid action: {action}")` (carrying the raw
action text). -/
inductive PyErr where
  | indexError : PyErr
  | intValueError : String → PyErr
  | unpackError : PyErr
  | invalidAction : String → PyErr
deriving DecidableEq

/-- The `Action` pydantic model of `vlm.py`: an action kind, a string-valued
argument mapping (in insertion order, as a Python dict preserves it), and the
accompanying reasoning text. -/
structure Action where
  action : String
  args : List (String × String)
  reasoning : String
deriving DecidableEq

deriving instance DecidableEq for Except

/-- `int()` as an `Except`, recording the offending literal on failure. -/
def pyIntE (l : List Char) : Except PyErr Int :=
  match pyInt l with
  | some n => .ok n
  | none => .error (.intValueError ⟨l⟩)

/-- Python `x, y = map(int, l)`: `map` is lazy, so elements are converted
left to right and a third element is converted before the arity error
surfaces, exactly as in CPython. -/
def unpack2 (l : List (List Char)) : Except PyErr (Int × Int) :=
  match l with
  | [] => .error .unpackError
  | [a] => do
    let _ ← pyIntE a
    .error .unpackError
  | [a, b] => do
    let x ← pyIntE a
    let y ← pyIntE b
    pure (x, y)
  | a :: b :: c :: _ => do
    let _ ← pyIntE a
    let _ ← pyIntE b
    let _ ← pyIntE c
    .error .unpackError

/-- `map(int, coords.strip("()").split(","))` unpacked into a pair. -/
def parseCoords (coords : List Char) : Except PyErr (Int × Int) :=
  unpack2 (pySplitL [','] (stripChars parenChar coords))

/-- The marker `point='`. -/
def pointMark : List Char := "point='".data

/-- The marker `start_box='`. -/
def startBoxMark : List Char := "start_box='".data

/-- The marker `end_box='`. -/
def endBoxMark : List Char := "end_box='".data

/-- The marker `key='`. -/
def keyMark : List Char := "key='".data

/-- The marker `content='`. -/
def contentMark : List Char := "content='".data

/-- The marker `direction='`. -/
def directionMark : List Char := "direction='".data

/-- The marker `url='`. -/
def urlMark : List Char := "url='".data

/-- Python `l[1]` on a split result: `IndexError` when the separator did not
occur (the split then has a single piece). -/
def idx1E (l : List (List Char)) : Except PyErr (List Char) :=
  match l with
  | _ :: x :: _ => .ok x
  | _ => .error .indexError

/-- The repeated source pattern `action.split(sep)[1].split("'")[0]`:
`IndexError` when `sep` does not occur. -/
def fieldAfter (sep : List Char) (a : List Char) : Except PyErr (List Char) := do
  let x ← idx1E (pySplitL sep a)
  pure ((pySplitL [squote] x).headD [])

/-- Field extraction followed by coordinate-pair conversion. -/
def getCoordsAfter (sep : List Char) (a : List Char) : Except PyErr (Int × Int) := do
  let c ← fieldAfter sep a
  parseCoords c

/-- The click/scroll coordinate source: `point='` when present, else
`start_box='`. -/
def clickCoords (a : List Char) : Except PyErr (Int × Int) :=
  if hasSub pointMark a then getCoordsAfter pointMark a else getCoordsAfter startBoxMark a

/-- Fuelled canonical decimal digits of a natural number, most significant
first; the fuel only makes the recursion structural. -/
def digitChar : Nat → Char
  | 0 => '0'
  | 1 => '1'
  | 2 => '2'
  | 3 => '3'
  | 4 => '4'
  | 5 => '5'
  | 6 => '6'
  | 7 => '7'
  | 8 => '8'
  | _ => '9'

/-- Fuelled worker for `natRepr`. -/
def natReprGo : Nat → Nat → List Char
  | 0, n => [digitChar n]
  | fuel + 1, n => if n < 10 then [digitChar n] else natReprGo fuel (n / 10) ++ [digitChar (n % 10)]

/-- Canonical decimal representation of a natural number, as Python `str`. -/
def natRepr (n : Nat) : List Char := natReprGo n n

/-- Python `str(i)` for an int: a minus sign for negatives, then the decimal
digits. -/
def intRepr (i : Int) : List Char :=
  if i < 0 then '-' :: natRepr i.natAbs else natRepr i.natAbs

/-- `str(i)` as a Lean string. -/
def intStr (i : Int) : String := ⟨intRepr i⟩

/-- The body of `parse_action` over the character list `a` of the action
text (`action` is the raw string, kept for the final `ValueError` payload).
Kind selection is a chain of `startswith` tests in source order; each branch
extracts its fields with `split(marker)[1].split("'")[0]` and converts
coordinates with `int`; the final branch raises
`ValueError(f"Invalid action: {action}")`. -/
def parseActionAux (a : List Char) (action reasoning : String) : Except PyErr Action :=
  if isPre "click".data a then do
    let (x, y) ← clickCoords a
    pure ⟨"click", [("x", intStr x), ("y", intStr y)], reasoning⟩
  else if isPre "left_double".data a then do
    let (x, y) ← getCoordsAfter startBoxMark a
    pure ⟨"left_double", [("x", intStr x), ("y", intStr y)], reasoning⟩
  else if isPre "right_single".data a then do
    let (x, y) ← getCoordsAfter startBoxMark a
    pure ⟨"right_single", [("x", intStr x), ("y", intStr y)], reasoning⟩
  else if isPre "drag".data a then do
    let sc ← fieldAfter startBoxMark a
    let ec ← fieldAfter endBoxMark a
    let (sx, sy) ← parseCoords sc
    let (ex, ey) ← parseCoords ec
    pure ⟨"drag",
      [("start_x", intStr sx), ("start_y", intStr sy),
       ("end_x", intStr ex), ("end_y", intStr ey)], reasoning⟩
  else if isPre "hotkey".data a then do
    let k ← fieldAfter keyMark a
    pure ⟨"hotkey", [("key", ⟨k⟩)], reasoning⟩
  else if isPre "type".data a then do
    let c ← fieldAfter contentMark a
    pure ⟨"type", [("content", ⟨c⟩)], reasoning⟩
  else if isPre "scroll".data a then do
    let (x, y) ← clickCoords a
    let d ← fieldAfter directionMark a
    pure ⟨"scroll", [("x", intStr x), ("y", intStr y), ("direction", ⟨d⟩)], reasoning⟩
  else if isPre "wait".data a then
    pure ⟨"wait", [], reasoning⟩
  else if isPre "finished".data a then do
    let c ← fieldAfter contentMark a
    pure ⟨"finished", [("content", ⟨c⟩)], reasoning⟩
  else if isPre "goto_url".data a then do
    let u ← fieldAfter urlMark a
    pure ⟨"goto_url", [("url", ⟨u⟩)], reasoning⟩
  else .error (.invalidAction action)

/-- The action-grammar parser: `parse_action` of `src/communicators/vlm.py`,
applied to the action text's characters. -/
def parse_action (action reasoning : String) : Except PyErr Action :=
  parseActionAux action.data action reasoning

/-- The action kinds of the parser's grammar, as the spec enumerates them. -/
def supportedKinds : List String :=
  ["click", "left_double", "right_single", "drag", "hotkey", "type", "scroll",
   "wait", "finished", "goto_url"]

/-- The argument keys each kind's `Action.args` must carry, in the insertion
order the parser uses. -/
def requiredKeys (kind : String) : List String :=
  if kind == "click" then ["x", "y"]
  else if kind == "left_double" then ["x", "y"]
  else if kind == "right_single" then ["x", "y"]
  else if kind == "drag" then ["start_x", "start_y", "end_x", "end_y"]
  else if kind == "hotkey" then ["key"]
  else if kind == "type" then ["content"]
  else if kind == "scroll" then ["x", "y", "direction"]
  else if kind == "wait" then []
  else if kind == "finished" then ["content"]
  else if kind == "goto_url" then ["url"]
  else []

/-- The `try` block of `vlm_call` in `src/communicators/vlm.py`, applied to
the already-prefixed response text: extract `reasoning` as
`t.split("Thought: ")[1].split("\nAction: ")[0].strip()` and the action text
as `t.split("Action: ")[1].strip()`. -/
def vlm_extract (t : List Char) : Except PyErr (List Char × List Char) := do
  let seg ← idx1E (pySplitL "Thought: ".data t)
  let reasoning := stripChars wsChar ((pySplitL "\nAction: ".data seg).headD [])
  let actSeg ← idx1E (pySplitL "Action: ".data t)
  pure (reasoning, stripChars wsChar actSeg)

/-- The part of `vlm_call` in `src/communicators/vlm.py` from the oracle's
raw response text on: the code first reassigns
`response_text = "temp " + response_text`, then runs the `try` block
(`vlm_extract`); on any exception it returns
`Action(action="error", args={}, reasoning=response_text)` with the
already-prefixed text, and otherwise calls `parse_action`. -/
def vlm_call_on_response (response_text : String) : Except PyErr Action :=
  let t := "temp ".data ++ response_text.data
  match vlm_extract t with
  | .error _ => .ok ⟨"error", [], ⟨t⟩⟩
  | .ok (reasoning, act) => parse_action ⟨act⟩ ⟨reasoning⟩

/-- The next-step directive `get_next_task` returns in `src/websight.py`: a
`NextTaskResponse` with an `action` string (its `parameters` only influence
the browser call, which the `Behavior` absorbs). -/
structure Directive where
  action : String
deriving DecidableEq

/-- The screenshot-analysis outcome `process_screenshot_and_decide_action`
returns: an `ImageAnalysisResponse` with an `action_to_take` string. -/
structure VisualDecision where
  action_to_take : String
deriving DecidableEq

/-- One run's worth of collaborator outcomes for `main_loop`, indexed by the
iteration at which each call is made: whether planning succeeded, what
`get_next_task` returns (`none` models both an explicit `finish` decision
and the `None` returned on an oracle error), what the screenshot analysis
returns, whether the browser action of that iteration succeeds, the
LLM text `update_state_and_actions` would set as the new state, and
whether the uncaught `browser_instance.active_page.wait_for_timeout(1000)`
call run after each successful iteration returns (`false`: it raises, and
the exception propagates out of `main_loop`, since that call sits outside
every `try`). -/
structure Behavior where
  planOk : Bool
  nextTask : Nat → Option Directive
  visual : Nat → Option VisualDecision
  browserOk : Nat → Bool
  stateUpdate : Nat → String
  waitOk : Nat → Bool

/-- The module constant `MAX_ACTIONS = 10` of `src/websight.py`. -/
def MAX_ACTIONS : Nat := 10

/-- The mutable module state `main_loop` threads: `actions_done`,
`current_state` and the local counter `actions_this_session`. -/
structure LoopState where
  actions_done : List String
  current_state : String
  actions_this_session : Nat
deriving DecidableEq

/-- `is_task_completed` of `src/websight.py`: false on a failed plan, true
when a `finish` action was recorded or `actions_done` reached
`MAX_ACTIONS`, false otherwise. -/
def is_task_completed (planOk : Bool) (actions_done : List String) : Bool :=
  if !planOk then false
  else if actions_done.contains "finish" then true
  else if MAX_ACTIONS ≤ actions_done.length then true
  else false

/-- `execute_browser_action` of `src/websight.py`, with the browser call and
the parameter checks of each known action absorbed into the `browserOk` bit
of the environment: a known action succeeds when the environment lets it,
the `finish` no-op always reports success, and an unknown action type
returns `False` (the `try` converts every exception into `False`, so the
function never raises). -/
def execute_browser_action (browserOk : Bool) (action_type : String) : Bool :=
  if action_type == "navigate" then browserOk
  else if action_type == "click" then browserOk
  else if action_type == "type" then browserOk
  else if action_type == "scroll" then browserOk
  else if action_type == "wait" then browserOk
  else if action_type == "finish" then true
  else false

/-- `update_state_and_actions` of `src/websight.py`: on success append the
executed action type to `actions_done` and set `current_state` to the
summarizer's text; on failure append nothing and only rewrite
`current_state` with the literal failure sentence of the source. -/
def update_state_and_actions (stateText : String) (action_type : String) (success : Bool)
    (s : LoopState) : LoopState :=
  if success then
    { s with actions_done := s.actions_done ++ [action_type], current_state := stateText }
  else
    { s with current_state :=
        "State after failed attempt of action: " ++ action_type ++
          ". Previous state was: " ++ s.current_state }

/-- What one loop iteration did: ended by a terminal decision (`None` or
`finish` from `get_next_task`, which appends `"finish"` and breaks before
acting), or dispatched an action of the given type with the given success. -/
inductive IterEvent where
  | terminalDecision : IterEvent
  | acted : String → Bool → IterEvent
deriving DecidableEq

/-- The action type `main_loop` executes: the directive itself for
`navigate`/`wait`/`finish`, otherwise the screenshot analysis when it
yields one, falling back to the directive. -/
def chooseActionType (d : Directive) (vis : Option VisualDecision) : String :=
  if d.action == "navigate" || d.action == "wait" || d.action == "finish" then d.action
  else
    match vis with
    | some v => v.action_to_take
    | none => d.action

/-- The `while` loop of `main_loop` in `src/websight.py`, returning the final
state, the per-iteration events in order, and whether an uncaught exception
propagated out of the loop.  After a successful dispatch the source updates
the state, increments `actions_this_session` and then runs the uncaught
`browser_instance.active_page.wait_for_timeout(1000)` (websight.py:402):
when that call raises (`b.waitOk k = false`), the loop aborts with the
exception flag set and the iteration's state changes already applied.  `k`
counts the iterations already run (indexing the behavior); the fuel only
makes the recursion structural and `MAX_ACTIONS + 1` provably suffices
(`loopGo_fuel_irrelevant`). -/
def loopGo (b : Behavior) : Nat → Nat → LoopState → LoopState × List IterEvent × Bool
  | 0, _, s => (s, [], false)
  | fuel + 1, k, s =>
    if is_task_completed b.planOk s.actions_done then (s, [], false)
    else if MAX_ACTIONS ≤ s.actions_this_session then (s, [], false)
    else
      match b.nextTask k with
      | none =>
        ({ s with actions_done := s.actions_done ++ ["finish"] }, [.terminalDecision], false)
      | some d =>
        if d.action == "finish" then
          ({ s with actions_done := s.actions_done ++ ["finish"] }, [.terminalDecision], false)
        else
          let aType := chooseActionType d (b.visual k)
          if execute_browser_action (b.browserOk k) aType then
            let s1 := { update_state_and_actions (b.stateUpdate k) aType true s with
              actions_this_session := s.actions_this_session + 1 }
            if b.waitOk k then
              let r := loopGo b fuel (k + 1) s1
              (r.1, .acted aType true :: r.2.1, r.2.2)
            else
              (s1, [.acted aType true], true)
          else
            (update_state_and_actions (b.stateUpdate k) aType false s,
              [.acted aType false], false)

/-- The state `main_loop` starts its loop with. -/
def initState : LoopState := ⟨[], "Plan generated.", 0⟩

/-- `main_loop` of `src/websight.py`: plan, then run the loop; a planning
failure halts before any iteration.  The final `Bool` reports an uncaught
exception escaping the loop (the run then never reaches
`summarize_task_results`). -/
def main_loop (b : Behavior) : LoopState × List IterEvent × Bool :=
  if b.planOk then loopGo b (MAX_ACTIONS + 1) 0 initState
  else (⟨[], "Error in planning.", 0⟩, [], false)

/-- How many iterations dispatched an action (the Acting phase ran). -/
def actedCount (evs : List IterEvent) : Nat :=
  (evs.filter (fun e => match e with | .acted _ _ => true | _ => false)).length

/-- The `actions_done` entry an iteration contributes: the action type on a
successful dispatch, `"finish"` on a terminal decision, nothing on a failed
dispatch. -/
def eventEntry : IterEvent → Option String
  | .terminalDecision => some "finish"
  | .acted t true => some t
  | .acted _ false => none

/-- A typed action value, used to state the round-trip property: one
constructor per supported kind, holding that kind's required arguments. -/
inductive ActVal where
  | click : Int → Int → ActVal
  | left_double : Int → Int → ActVal
  | right_single : Int → Int → ActVal
  | drag : Int → Int → Int → Int → ActVal
  | hotkey : String → ActVal
  | typeText : String → ActVal
  | scroll : Int → Int → String → ActVal
  | wait : ActVal
  | finished : String → ActVal
  | goto_url : String → ActVal

/-- A coordinate pair rendered as the grammar embeds it: `(x,y)`. -/
def coordsStr (x y : Int) : List Char :=
  '(' :: (intRepr x ++ ',' :: intRepr y ++ [')'])

/-- Render an action value in the documented marker syntax `key='value'`
(one fixed marker choice per kind). -/
def renderActL : ActVal → List Char
  | .click x y => "click(point='".data ++ coordsStr x y ++ "')".data
  | .left_double x y => "left_double(start_box='".data ++ coordsStr x y ++ "')".data
  | .right_single x y => "right_single(start_box='".data ++ coordsStr x y ++ "')".data
  | .drag sx sy ex ey =>
      "drag(start_box='".data ++ coordsStr sx sy ++ "', end_box='".data ++
        coordsStr ex ey ++ "')".data
  | .hotkey k => "hotkey(key='".data ++ k.data ++ "')".data
  | .typeText c => "type(content='".data ++ c.data ++ "')".data
  | .scroll x y d =>
      "scroll(point='".data ++ coordsStr x y ++ "', direction='".data ++ d.data ++ "')".data
  | .wait => "wait()".data
  | .finished c => "finished(content='".data ++ c.data ++ "')".data
  | .goto_url u => "goto_url(url='".data ++ u.data ++ "')".data

/-- `renderActL` as a string. -/
def renderAct (v : ActVal) : String := ⟨renderActL v⟩

/-- An action string of the form `kind(start_box='(x,y)')`. -/
def startBoxAction (kind : String) (x y : Int) : String :=
  ⟨kind.data ++ ("(start_box='".data ++ (coordsStr x y ++ "')".data))⟩

/-- Modelled from the spec: the documented rendering in which a single quote
inside a string-valued argument is written escaped as `\'` (the spec's
`type` row allows content with "escaped quotes", and its extraction rule
speaks of the next unescaped quote; the code has no such renderer). -/
def escQuote (l : List Char) : List Char :=
  l.flatMap (fun c => if c == squote then ['\\', squote] else [c])

/-- Modelled from the spec: `renderActL` with the string-valued arguments
quote-escaped. -/
def renderSpecL : ActVal → List Char
  | .hotkey k => "hotkey(key='".data ++ escQuote k.data ++ "')".data
  | .typeText c => "type(content='".data ++ escQuote c.data ++ "')".data
  | .scroll x y d =>
      "scroll(point='".data ++ coordsStr x y ++ "', direction='".data ++
        escQuote d.data ++ "')".data
  | .finished c => "finished(content='".data ++ escQuote c.data ++ "')".data
  | .goto_url u => "goto_url(url='".data ++ escQuote u.data ++ "')".data
  | v => renderActL v

/-- The `(kind, args)` pair the round-trip should give back, together with
the reasoning the parser threads through. -/
def expectedAct (v : ActVal) (r : String) : Action :=
  match v with
  | .click x y => ⟨"click", [("x", intStr x), ("y", intStr y)], r⟩
  | .left_double x y => ⟨"left_double", [("x", intStr x), ("y", intStr y)], r⟩
  | .right_single x y => ⟨"right_single", [("x", intStr x), ("y", intStr y)], r⟩
  | .drag sx sy ex ey =>
      ⟨"drag", [("start_x", intStr sx), ("start_y", intStr sy),
        ("end_x", intStr ex), ("end_y", intStr ey)], r⟩
  | .hotkey k => ⟨"hotkey", [("key", k)], r⟩
  | .typeText c => ⟨"type", [("content", c)], r⟩
  | .scroll x y d => ⟨"scroll", [("x", intStr x), ("y", intStr y), ("direction", d)], r⟩
  | .wait => ⟨"wait", [], r⟩
  | .finished c => ⟨"finished", [("content", c)], r⟩
  | .goto_url u => ⟨"goto_url", [("url", u)], r⟩

/-- A string-valued argument the brittle extraction reads back intact: it
contains no single quote and does not end in its own marker text (a value
ending in the marker's `key=` text recreates the marker before the closing
quote, truncating the extraction). -/
def goodField (sepInit : List Char) (s : String) : Prop :=
  squote ∉ s.data ∧ ¬ sepInit <:+ s.data

/-- The argument restriction under which the round-trip holds. -/
def validArgs : ActVal → Prop
  | .hotkey k => goodField "key=".data k
  | .typeText c => goodField "content=".data c
  | .scroll _ _ d => goodField "direction=".data d
  | .finished c => goodField "content=".data c
  | .goto_url u => goodField "url=".data u
  | _ => True

/-- Whether the input starts with one of the grammar's kind tokens (the
parser's chain of `startswith` tests succeeds somewhere). -/
def startsAnyKind (a : List Char) : Bool :=
  supportedKinds.any (fun k => isPre k.data a)

/-- No occurrence of the separator can begin strictly inside `pre` and run
into an adjacent copy of the separator: the condition under which splitting
walks straight through `pre`. -/
def noRestart (sep pre : List Char) : Prop :=
  ∀ w ∈ pre.tails, w = [] ∨ isPre sep (w ++ sep) = false

instance noRestartDec (sep pre : List Char) : Decidable (noRestart sep pre) :=
  inferInstanceAs (Decidable (∀ w ∈ pre.tails, w = [] ∨ isPre sep (w ++ sep) = false))

/-- Iteration `i` of a run neither terminates nor fails nor raises: the
directive is present and not `finish`, the chosen action type is not
`finish`, its dispatch succeeds, and the post-iteration wait call
returns. -/
def steadyAt (b : Behavior) (i : Nat) : Prop :=
  ∃ d, b.nextTask i = some d ∧ d.action ≠ "finish" ∧
    chooseActionType d (b.visual i) ≠ "finish" ∧
    execute_browser_action (b.browserOk i) (chooseActionType d (b.visual i)) = true ∧
    b.waitOk i = true

/-- A behavior whose oracle always asks for a `click` that succeeds and
whose wait calls all return: the loop then runs to its iteration bound. -/
def bSteady : Behavior :=
  ⟨true, fun _ => some ⟨"click"⟩, fun _ => none, fun _ => true, fun _ => "ok", fun _ => true⟩

/-- A behavior whose first dispatch fails (`type` with a failing browser). -/
def bFail : Behavior :=
  ⟨true, fun _ => some ⟨"type"⟩, fun _ => none, fun _ => false, fun _ => "ok", fun _ => true⟩

/-- A behavior whose oracle decides the literal text `finished` (not the
loop's terminal marker `finish`) at every iteration, with screenshot
analysis unavailable. -/
def bFinished : Behavior :=
  ⟨true, fun _ => some ⟨"finished"⟩, fun _ => none, fun _ => true, fun _ => "ok", fun _ => true⟩

/-- A behavior whose oracle decides the terminal marker `finish` at once. -/
def bFinish : Behavior :=
  ⟨true, fun _ => some ⟨"finish"⟩, fun _ => none, fun _ => true, fun _ => "ok", fun _ => true⟩

/-- A behavior whose ten dispatches all succeed but whose post-iteration
wait call raises on the tenth, bound-reaching iteration (index 9). -/
def bWaitCrash : Behavior :=
  ⟨true, fun _ => some ⟨"click"⟩, fun _ => none, fun _ => true, fun _ => "ok",
    fun i => decide (i < 9)⟩

theorem isPre_append (l r : List Char) : isPre l (l ++ r) = true := by
  induction l with
  | nil => rfl
  | cons p ps ih => simp [isPre, ih]

theorem isPre_exists (l : List Char) : ∀ m, isPre l m = true → ∃ r, m = l ++ r := by
  induction l with
  | nil => exact fun m _ => ⟨m, rfl⟩
  | cons p ps ih =>
    intro m h
    cases m with
    | nil => simp [isPre] at h
    | cons c cs =>
      simp only [isPre, Bool.and_eq_true, beq_iff_eq] at h
      obtain ⟨r, hr⟩ := ih cs h.2
      exact ⟨r, by simp [h.1, hr]⟩

theorem isPre_take (l : List Char) : ∀ x y : List Char, l.length ≤ x.length →
    isPre l (x ++ y) = isPre l x := by
  induction l with
  | nil => intro x y _; rfl
  | cons p ps ih =>
    intro x y h
    cases x with
    | nil => simp at h
    | cons c cs =>
      have hsh : (c :: cs) ++ y = c :: (cs ++ y) := rfl
      rw [hsh]
      simp only [isPre]
      rw [ih cs y (by simpa using h)]

theorem pySplitGo_nil (s0 : Char) (srest : List Char) (f : Nat) :
    pySplitGo s0 srest f [] = [[]] := by cases f <;> rfl

theorem pySplitGo_succ (s0 : Char) (srest : List Char) (f : Nat) (c : Char) (cs : List Char) :
    pySplitGo s0 srest (f + 1) (c :: cs) =
      if isPre (s0 :: srest) (c :: cs) then [] :: pySplitGo s0 srest f (cs.drop srest.length)
      else
        match pySplitGo s0 srest f cs with
        | [] => [[c]]
        | h :: t => (c :: h) :: t := rfl

theorem pySplitGo_fuel (s0 : Char) (srest : List Char) :
    ∀ f₁ f₂ l, l.length ≤ f₁ → l.length ≤ f₂ →
      pySplitGo s0 srest f₁ l = pySplitGo s0 srest f₂ l := by
  intro f₁
  induction f₁ with
  | zero =>
    intro f₂ l h1 _
    have hl : l = [] := by
      cases l with
      | nil => rfl
      | cons c cs => simp at h1
    subst hl
    simp [pySplitGo_nil]
  | succ f ih =>
    intro f₂ l h1 h2
    cases l with
    | nil => simp [pySplitGo_nil]
    | cons c cs =>
      cases f₂ with
      | zero => simp at h2
      | succ g =>
        rw [pySplitGo_succ, pySplitGo_succ]
        have hcs : cs.length ≤ f := by simpa using h1
        have hcs2 : cs.length ≤ g := by simpa using h2
        have hdrop : (cs.drop srest.length).length ≤ f := by
          rw [List.length_drop]; omega
        have hdrop2 : (cs.drop srest.length).length ≤ g := by
          rw [List.length_drop]; omega
        rw [ih g _ hdrop hdrop2, ih g cs hcs hcs2]

theorem pySplit_nil (s0 : Char) (srest : List Char) : pySplit s0 srest [] = [[]] := rfl

theorem pySplit_cons (s0 c : Char) (srest cs : List Char) :
    pySplit s0 srest (c :: cs) =
      if isPre (s0 :: srest) (c :: cs) then [] :: pySplit s0 srest (cs.drop srest.length)
      else
        match pySplit s0 srest cs with
        | [] => [[c]]
        | h :: t => (c :: h) :: t := by
  show pySplitGo s0 srest (cs.length + 1) (c :: cs) = _
  rw [pySplitGo_succ]
  rw [pySplitGo_fuel s0 srest cs.length (cs.drop srest.length).length (cs.drop srest.length)
    (by rw [List.length_drop]; omega) (le_refl _)]
  rfl

theorem pySplit_cons_pos (s0 c : Char) (srest cs : List Char)
    (h : isPre (s0 :: srest) (c :: cs) = true) :
    pySplit s0 srest (c :: cs) = [] :: pySplit s0 srest (cs.drop srest.length) := by
  rw [pySplit_cons, if_pos h]

theorem pySplit_cons_neg (s0 c : Char) (srest cs : List Char) (hh : List Char)
    (tt : List (List Char)) (h : isPre (s0 :: srest) (c :: cs) = false)
    (hr : pySplit s0 srest cs = hh :: tt) :
    pySplit s0 srest (c :: cs) = (c :: hh) :: tt := by
  rw [pySplit_cons, if_neg (by simp [h]), hr]

theorem pySplit_ne_nil (s0 : Char) (srest l : List Char) : pySplit s0 srest l ≠ [] := by
  induction l with
  | nil => simp [pySplit_nil]
  | cons c cs ih =>
    rw [pySplit_cons]
    split
    · simp
    · obtain ⟨hh, tt, hr⟩ := List.exists_cons_of_ne_nil ih
      rw [hr]
      simp

theorem pySplit_shape (s0 : Char) (srest l : List Char) :
    ∃ hh tt, pySplit s0 srest l = hh :: tt :=
  List.exists_cons_of_ne_nil (pySplit_ne_nil s0 srest l)

theorem pySplit_single_head (q : Char) (l : List Char) :
    (pySplit q [] l).headD [] = l.takeWhile (fun c => c != q) := by
  induction l with
  | nil => rfl
  | cons c cs ih =>
    by_cases h : q = c
    · subst h
      rw [pySplit_cons_pos q q [] cs (by simp [isPre])]
      simp [List.takeWhile_cons]
    · obtain ⟨hh, tt, hr⟩ := pySplit_shape q [] cs
      rw [pySplit_cons_neg q c [] cs hh tt (by simp [isPre, h]) hr]
      rw [hr] at ih
      simp only [List.headD] at ih ⊢
      rw [List.takeWhile_cons, if_pos (by simp [bne_iff_ne]; exact fun he => h he.symm), ← ih]

theorem hasSub_false_split (s0 : Char) (srest l : List Char)
    (h : hasSub (s0 :: srest) l = false) : pySplit s0 srest l = [l] := by
  induction l with
  | nil => simp [pySplit_nil]
  | cons c cs ih =>
    simp only [hasSub, Bool.or_eq_false_iff] at h
    rw [pySplit_cons_neg s0 c srest cs cs [] h.1 (ih h.2)]

theorem hasSub_true_split (s0 : Char) (srest l : List Char)
    (h : hasSub (s0 :: srest) l = true) :
    ∃ x y rest, pySplit s0 srest l = x :: y :: rest := by
  induction l with
  | nil => simp [hasSub, isPre] at h
  | cons c cs ih =>
    by_cases hp : isPre (s0 :: srest) (c :: cs) = true
    · obtain ⟨hh, tt, hr⟩ := pySplit_shape s0 srest (cs.drop srest.length)
      exact ⟨[], hh, tt, by rw [pySplit_cons_pos _ _ _ _ hp, hr]⟩
    · have hp' : isPre (s0 :: srest) (c :: cs) = false := by
        simpa using hp
      have hsub : hasSub (s0 :: srest) cs = true := by
        simpa [hasSub, hp'] using h
      obtain ⟨x, y, rest, hr⟩ := ih hsub
      exact ⟨c :: x, y, rest, by rw [pySplit_cons_neg _ _ _ _ _ _ hp' hr]⟩

theorem hasSub_of_decomp (s0 : Char) (srest v : List Char) :
    ∀ u, hasSub (s0 :: srest) (u ++ ((s0 :: srest) ++ v)) = true := by
  intro u
  induction u with
  | nil =>
    show hasSub (s0 :: srest) (s0 :: (srest ++ v)) = true
    have h2 : isPre (s0 :: srest) (s0 :: (srest ++ v)) = true := isPre_append (s0 :: srest) v
    simp [hasSub, h2]
  | cons c cu ih =>
    show hasSub (s0 :: srest) (c :: (cu ++ ((s0 :: srest) ++ v))) = true
    simp only [hasSub, Bool.or_eq_true]
    exact Or.inr ih

theorem hasSub_false_of_not_mem (s0 : Char) (srest l : List Char) (h : s0 ∉ l) :
    hasSub (s0 :: srest) l = false := by
  induction l with
  | nil => rfl
  | cons c cs ih =>
    have h1 : s0 ≠ c := fun he => h (he ▸ List.mem_cons_self c cs)
    have h2 : s0 ∉ cs := fun hm => h (List.mem_cons_of_mem c hm)
    simp [hasSub, isPre, h1, ih h2]

theorem noRestart_of_not_mem (s0 : Char) (srest pre : List Char) (h : s0 ∉ pre) :
    noRestart (s0 :: srest) pre := by
  intro w hw
  cases w with
  | nil => exact Or.inl rfl
  | cons c cw =>
    right
    have hc : c ∈ pre := ((List.mem_tails _ _).mp hw).subset (List.mem_cons_self c cw)
    have h1 : s0 ≠ c := fun he => h (he ▸ hc)
    simp [isPre, h1]

theorem pySplit_through (s0 : Char) (srest rest : List Char) :
    ∀ pre, noRestart (s0 :: srest) pre →
      pySplit s0 srest (pre ++ (s0 :: srest) ++ rest) = pre :: pySplit s0 srest rest := by
  intro pre
  induction pre with
  | nil =>
    intro _
    have h1 : ([] : List Char) ++ (s0 :: srest) ++ rest = s0 :: (srest ++ rest) := rfl
    rw [h1, pySplit_cons_pos s0 s0 srest (srest ++ rest)
      (by rw [show s0 :: (srest ++ rest) = (s0 :: srest) ++ rest from rfl]; exact isPre_append _ _)]
    rw [List.drop_left]
  | cons c pre ih =>
    intro h
    have hw := h (c :: pre) (by rw [List.mem_tails])
    have hfalse : isPre (s0 :: srest) ((c :: pre) ++ (s0 :: srest) ++ rest) = false := by
      rcases hw with h0 | h0
      · simp at h0
      · rw [isPre_take _ _ _ (by simp; omega)]
        exact h0
    have hpre : noRestart (s0 :: srest) pre := by
      intro w hw'
      exact h w (by rw [List.tails_cons]; exact List.mem_cons_of_mem _ hw')
    have hshape : (c :: pre) ++ (s0 :: srest) ++ rest =
        c :: (pre ++ (s0 :: srest) ++ rest) := by simp
    rw [hshape] at hfalse ⊢
    rw [pySplit_cons_neg s0 c srest _ pre (pySplit s0 srest rest) hfalse (ih hpre)]

theorem except_bind_ok {α β : Type} (x : α) (f : α → Except PyErr β) :
    ((Except.ok x : Except PyErr α) >>= f) = f x := rfl

theorem except_bind_err {α β : Type} (e : PyErr) (f : α → Except PyErr β) :
    ((Except.error e : Except PyErr α) >>= f) = .error e := rfl

theorem except_bind_eq_ok {α β : Type} (m : Except PyErr α) (f : α → Except PyErr β) (b : β) :
    (m >>= f) = .ok b ↔ ∃ x, m = .ok x ∧ f x = .ok b := by
  cases m with
  | ok x => simp [except_bind_ok]
  | error e => simp [except_bind_err]

theorem except_bind_eq_err {α β : Type} (m : Except PyErr α) (f : α → Except PyErr β) (e : PyErr) :
    (m >>= f) = .error e ↔ m = .error e ∨ ∃ x, m = .ok x ∧ f x = .error e := by
  cases m with
  | ok x => simp [except_bind_ok]
  | error e₂ => simp [except_bind_err]

theorem not_suffix_of_getLast (l m : List Char) (x y : Char) (hl : l.getLast? = some x)
    (hm : m.getLast? = some y) (hxy : x ≠ y) : ¬ l <:+ m := by
  intro hsuf
  obtain ⟨t, ht⟩ := hsuf
  have hlne : l ≠ [] := by intro he; rw [he] at hl; simp at hl
  have hx : m.getLast? = some x := by
    rw [← ht, List.getLast?_append_of_ne_nil t hlne]
    exact hl
  rw [hm] at hx
  exact hxy (by injection hx with h; exact h.symm)

theorem isPre_quote_align (q : Char) :
    ∀ sepInit mid tail : List Char, q ∉ sepInit → q ∉ mid →
      isPre (sepInit ++ [q]) (mid ++ q :: tail) = true → sepInit = mid := by
  intro sepInit
  induction sepInit with
  | nil =>
    intro mid tail _ hm h
    cases mid with
    | nil => rfl
    | cons c cm =>
      exfalso
      simp only [List.nil_append, List.cons_append, isPre, Bool.and_eq_true, beq_iff_eq] at h
      exact hm (by rw [h.1]; exact List.mem_cons_self c cm)
  | cons a sInit ih =>
    intro mid tail hq hm h
    cases mid with
    | nil =>
      exfalso
      simp only [List.cons_append, List.nil_append, isPre, Bool.and_eq_true, beq_iff_eq] at h
      exact hq (by rw [← h.1]; exact List.mem_cons_self a sInit)
    | cons c cm =>
      simp only [List.cons_append, isPre, Bool.and_eq_true, beq_iff_eq] at h
      have h2 := ih cm tail (fun hx => hq (List.mem_cons_of_mem a hx))
        (fun hx => hm (List.mem_cons_of_mem c hx)) h.2
      rw [h.1, h2]

theorem upToQuote_split (a : Char) (sInit : List Char) :
    ∀ mid tail : List Char, squote ∉ a :: sInit → squote ∉ mid → ¬ (a :: sInit) <:+ mid →
      ((pySplit a (sInit ++ [squote]) (mid ++ squote :: tail)).headD []).takeWhile
        (fun c => c != squote) = mid := by
  intro mid
  induction mid with
  | nil =>
    intro tail hq _ _
    have hqa : a ≠ squote := fun he => hq (by rw [← he]; exact List.mem_cons_self a sInit)
    have h0 : isPre (a :: (sInit ++ [squote])) (squote :: tail) = false := by
      simp [isPre, hqa]
    obtain ⟨hh, tt, hr⟩ := pySplit_shape a (sInit ++ [squote]) tail
    show ((pySplit a (sInit ++ [squote]) (squote :: tail)).headD []).takeWhile _ = []
    rw [pySplit_cons_neg a squote (sInit ++ [squote]) tail hh tt h0 hr]
    simp [List.takeWhile_cons]
  | cons c cm ih =>
    intro tail hq hm hs
    have hcq : c ≠ squote := fun he => hm (by rw [← he]; exact List.mem_cons_self c cm)
    by_cases hp : isPre (a :: (sInit ++ [squote])) (c :: (cm ++ squote :: tail)) = true
    · exfalso
      have halign := isPre_quote_align squote (a :: sInit) (c :: cm) tail hq hm
        (by simpa using hp)
      exact hs (by rw [halign])
    · have hp' : isPre (a :: (sInit ++ [squote])) (c :: (cm ++ squote :: tail)) = false := by
        simpa using hp
      obtain ⟨hh, tt, hr⟩ := pySplit_shape a (sInit ++ [squote]) (cm ++ squote :: tail)
      show ((pySplit a (sInit ++ [squote]) (c :: (cm ++ squote :: tail))).headD []).takeWhile _
        = c :: cm
      rw [pySplit_cons_neg a c (sInit ++ [squote]) _ hh tt hp' hr]
      have ihr := ih tail hq (fun hx => hm (List.mem_cons_of_mem c hx))
        (fun hsx => hs (hsx.trans (List.suffix_cons c cm)))
      rw [hr] at ihr
      simp only [List.headD_cons] at ihr ⊢
      rw [List.takeWhile_cons, if_pos (by rw [bne_iff_ne]; exact hcq), ihr]

theorem fieldAfter_render (a : Char) (sInit pre mid tail : List Char)
    (hrs : noRestart (a :: (sInit ++ [squote])) pre)
    (hq : squote ∉ a :: sInit) (hm : squote ∉ mid) (hs : ¬ (a :: sInit) <:+ mid) :
    fieldAfter (a :: (sInit ++ [squote]))
      (pre ++ (a :: (sInit ++ [squote])) ++ (mid ++ squote :: tail)) = .ok mid := by
  unfold fieldAfter
  rw [show pySplitL (a :: (sInit ++ [squote]))
      (pre ++ (a :: (sInit ++ [squote])) ++ (mid ++ squote :: tail)) =
      pySplit a (sInit ++ [squote])
        (pre ++ (a :: (sInit ++ [squote])) ++ (mid ++ squote :: tail)) from rfl]
  rw [pySplit_through a (sInit ++ [squote]) (mid ++ squote :: tail) pre hrs]
  obtain ⟨hh, tt, hr⟩ := pySplit_shape a (sInit ++ [squote]) (mid ++ squote :: tail)
  rw [hr]
  rw [show idx1E (pre :: hh :: tt) = Except.ok hh from rfl, except_bind_ok]
  have hval : (pySplitL [squote] hh).headD [] = mid := by
    rw [show pySplitL [squote] hh = pySplit squote [] hh from rfl, pySplit_single_head]
    have h4 := upToQuote_split a sInit mid tail hq hm hs
    rw [hr] at h4
    simpa using h4
  rw [hval]
  rfl

theorem isDigitC_digitChar (n : Nat) : isDigitC (digitChar n) = true := by
  unfold digitChar
  split <;> decide

theorem digVal_digitChar (n : Nat) (h : n < 10) : digVal (digitChar n) = n := by
  interval_cases n <;> decide

theorem isDigit_toNat (c : Char) (h : isDigitC c = true) : 48 ≤ c.toNat ∧ c.toNat ≤ 57 := by
  simpa [isDigitC, Bool.and_eq_true, decide_eq_true_eq] using h

theorem beq_false_of_toNat_ne (c d : Char) (h : c.toNat ≠ d.toNat) : (c == d) = false := by
  cases hq : c == d
  · rfl
  · exact absurd (congrArg Char.toNat (beq_iff_eq.mp hq)) h

theorem natReprGo_digits : ∀ f n, ∀ c ∈ natReprGo f n, isDigitC c = true := by
  intro f
  induction f with
  | zero =>
    intro n c hc
    simp only [natReprGo, List.mem_singleton] at hc
    rw [hc]; exact isDigitC_digitChar n
  | succ f ih =>
    intro n c hc
    by_cases h : n < 10
    · simp only [natReprGo, if_pos h, List.mem_singleton] at hc
      rw [hc]; exact isDigitC_digitChar n
    · simp only [natReprGo, if_neg h, List.mem_append, List.mem_singleton] at hc
      rcases hc with hc | hc
      · exact ih _ c hc
      · rw [hc]; exact isDigitC_digitChar _

theorem natReprGo_ne_nil : ∀ f n, natReprGo f n ≠ [] := by
  intro f n
  cases f with
  | zero => simp [natReprGo]
  | succ f =>
    by_cases h : n < 10 <;> simp [natReprGo, h]

theorem natReprGo_spec : ∀ f n, n ≤ f → ∀ acc,
    (natReprGo f n).foldl (fun a c => 10 * a + digVal c) acc =
      acc * 10 ^ (natReprGo f n).length + n := by
  intro f
  induction f with
  | zero =>
    intro n hn acc
    have hz : n = 0 := Nat.le_zero.mp hn
    subst hz
    simp [natReprGo, digVal, digitChar]
    omega
  | succ f ih =>
    intro n hn acc
    by_cases h : n < 10
    · simp [natReprGo, if_pos h, digVal_digitChar n h]
      omega
    · have hd : n / 10 ≤ f := by
        have := Nat.div_lt_self (by omega : 0 < n) (by omega : 1 < 10)
        omega
      simp only [natReprGo, if_neg h]
      rw [List.foldl_append, ih (n / 10) hd acc]
      simp only [List.foldl_cons, List.foldl_nil, List.length_append, List.length_singleton]
      rw [digVal_digitChar (n % 10) (Nat.mod_lt n (by omega))]
      have hmod := Nat.div_add_mod n 10
      rw [pow_succ]
      ring_nf
      omega

theorem natRepr_digits (n : Nat) : ∀ c ∈ natRepr n, isDigitC c = true :=
  natReprGo_digits n n

theorem natRepr_ne_nil (n : Nat) : natRepr n ≠ [] := natReprGo_ne_nil n n

theorem digRun_cons_digit (acc : Nat) (c : Char) (cs : List Char) (hc : isDigitC c = true) :
    digRun acc (c :: cs) = digRun (10 * acc + digVal c) cs := by
  cases cs with
  | nil =>
    conv_lhs => unfold digRun
    rw [if_pos hc]
  | cons d ds =>
    conv_lhs => unfold digRun
    rw [if_pos hc]

theorem digRun_digits : ∀ l : List Char, (∀ c ∈ l, isDigitC c = true) → ∀ acc,
    digRun acc l = some (l.foldl (fun a c => 10 * a + digVal c) acc) := by
  intro l
  induction l with
  | nil => intro _ acc; rfl
  | cons c cs ih =>
    intro h acc
    have hc := h c (List.mem_cons_self c cs)
    rw [digRun_cons_digit acc c cs hc, List.foldl_cons]
    exact ih (fun x hx => h x (List.mem_cons_of_mem c hx)) (10 * acc + digVal c)

theorem digPart_natRepr (n : Nat) : digPart (natRepr n) = some n := by
  obtain ⟨c, cs, hcc⟩ := List.exists_cons_of_ne_nil (natRepr_ne_nil n)
  have hc : isDigitC c = true :=
    natRepr_digits n c (by rw [hcc]; exact List.mem_cons_self c cs)
  have hcs : ∀ x ∈ cs, isDigitC x = true := fun x hx =>
    natRepr_digits n x (by rw [hcc]; exact List.mem_cons_of_mem c hx)
  have hfold := natReprGo_spec n n (le_refl n) 0
  rw [show natReprGo n n = natRepr n from rfl, hcc] at hfold
  simp only [List.foldl_cons, Nat.zero_mul, Nat.zero_add] at hfold
  rw [hcc]
  simp only [digPart, hc, if_true]
  rw [digRun_digits cs hcs (digVal c)]
  congr 1
  simpa using hfold

theorem intRepr_chars (i : Int) (c : Char) (h : c ∈ intRepr i) :
    c = '-' ∨ isDigitC c = true := by
  unfold intRepr at h
  split at h
  · rcases List.mem_cons.mp h with h | h
    · exact Or.inl h
    · exact Or.inr (natRepr_digits _ c h)
  · exact Or.inr (natRepr_digits _ c h)

theorem stripChars_of_all (p : Char → Bool) (l : List Char) (h : ∀ c ∈ l, p c = false) :
    stripChars p l = l := by
  cases l with
  | cons c cs =>
    have hc : p c = false := h c (List.mem_cons_self c cs)
    unfold stripChars
    rw [List.dropWhile_cons, if_neg (by simp [hc])]
    obtain ⟨d, ds, hd⟩ := List.exists_cons_of_ne_nil
      (show (c :: cs).reverse ≠ [] by simp)
    have hdm : d ∈ c :: cs := List.mem_reverse.mp (by rw [hd]; exact List.mem_cons_self d ds)
    rw [hd, List.dropWhile_cons, if_neg (by simp [h d hdm]), ← hd, List.reverse_reverse]
  | nil => rfl

theorem wsChar_digit (c : Char) (h : isDigitC c = true) : wsChar c = false := by
  obtain ⟨h1, h2⟩ := isDigit_toNat c h
  have e1 : (c == ' ') = false := beq_false_of_toNat_ne c ' '
    (by have : (' ' : Char).toNat = 32 := rfl; omega)
  have e2 : (c == '\t') = false := beq_false_of_toNat_ne c '\t'
    (by have : ('\t' : Char).toNat = 9 := rfl; omega)
  have e3 : (c == '\n') = false := beq_false_of_toNat_ne c '\n'
    (by have : ('\n' : Char).toNat = 10 := rfl; omega)
  have e4 : (c == '\r') = false := beq_false_of_toNat_ne c '\r'
    (by have : ('\r' : Char).toNat = 13 := rfl; omega)
  have e5 : (c == Char.ofNat 11) = false := beq_false_of_toNat_ne c (Char.ofNat 11)
    (by have : (Char.ofNat 11).toNat = 11 := rfl; omega)
  have e6 : (c == Char.ofNat 12) = false := beq_false_of_toNat_ne c (Char.ofNat 12)
    (by have : (Char.ofNat 12).toNat = 12 := rfl; omega)
  simp [wsChar, e1, e2, e3, e4, e5, e6]

theorem pyInt_intRepr (i : Int) : pyInt (intRepr i) = some i := by
  have hws : stripChars wsChar (intRepr i) = intRepr i :=
    stripChars_of_all _ _ (fun c hc => by
      rcases intRepr_chars i c hc with h | h
      · rw [h]; decide
      · exact wsChar_digit c h)
  by_cases hi : i < 0
  · have hrep : intRepr i = '-' :: natRepr i.natAbs := by rw [intRepr, if_pos hi]
    unfold pyInt
    rw [hws, hrep]
    show pyIntCore '-' (natRepr i.natAbs) = some i
    unfold pyIntCore
    rw [if_neg (by decide), if_pos (by decide), digPart_natRepr]
    show some (-((i.natAbs : Nat) : Int)) = some i
    have habs := Int.ofNat_natAbs_of_nonpos (le_of_lt hi)
    rw [habs]
    simp
  · have hrep : intRepr i = natRepr i.natAbs := by rw [intRepr, if_neg hi]
    obtain ⟨c, cs, hcc⟩ := List.exists_cons_of_ne_nil (natRepr_ne_nil i.natAbs)
    have hc : isDigitC c = true :=
      natRepr_digits _ c (by rw [hcc]; exact List.mem_cons_self c cs)
    obtain ⟨g1, g2⟩ := isDigit_toNat c hc
    unfold pyInt
    rw [hws, hrep, hcc]
    show pyIntCore c cs = some i
    unfold pyIntCore
    rw [if_neg (by
        rw [beq_false_of_toNat_ne c '+' (by have : ('+' : Char).toNat = 43 := rfl; omega)]
        simp),
      if_neg (by
        rw [beq_false_of_toNat_ne c '-' (by have : ('-' : Char).toNat = 45 := rfl; omega)]
        simp),
      ← hcc, digPart_natRepr]
    show some (((i.natAbs : Nat) : Int)) = some i
    rw [Int.natAbs_of_nonneg (not_lt.mp hi)]

theorem pyIntE_intRepr (i : Int) : pyIntE (intRepr i) = .ok i := by
  unfold pyIntE
  rw [pyInt_intRepr]

theorem not_mem_intRepr (d : Char) (hd1 : d.toNat ≠ 45) (hd2 : d.toNat < 48 ∨ 57 < d.toNat)
    (i : Int) : d ∉ intRepr i := by
  intro hmem
  rcases intRepr_chars i d hmem with h | h
  · rw [h] at hd1; exact hd1 rfl
  · obtain ⟨g1, g2⟩ := isDigit_toNat d h; omega

theorem not_mem_coordsStr (d : Char) (hd1 : d.toNat ≠ 45) (hd2 : d.toNat < 48 ∨ 57 < d.toNat)
    (hd3 : d.toNat ≠ 40) (hd4 : d.toNat ≠ 41) (hd5 : d.toNat ≠ 44) (x y : Int) :
    d ∉ coordsStr x y := by
  intro hmem
  unfold coordsStr at hmem
  simp only [List.mem_cons, List.mem_append, List.mem_singleton] at hmem
  rcases hmem with h | (h | h | h) | h
  · rw [h] at hd3; exact hd3 rfl
  · exact not_mem_intRepr d hd1 hd2 x h
  · rw [h] at hd5; exact hd5 rfl
  · exact not_mem_intRepr d hd1 hd2 y h
  · rcases h with h | h
    · rw [h] at hd4; exact hd4 rfl
    · simp at h

theorem parenChar_intRepr (i : Int) (c : Char) (h : c ∈ intRepr i) : parenChar c = false := by
  rcases intRepr_chars i c h with h1 | h1
  · rw [h1]; decide
  · obtain ⟨g1, g2⟩ := isDigit_toNat c h1
    have e1 : (c == '(') = false := beq_false_of_toNat_ne c '('
      (by have : ('(' : Char).toNat = 40 := rfl; omega)
    have e2 : (c == ')') = false := beq_false_of_toNat_ne c ')'
      (by have : (')' : Char).toNat = 41 := rfl; omega)
    simp [parenChar, e1, e2]

theorem intRepr_ne_nil (i : Int) : intRepr i ≠ [] := by
  unfold intRepr
  split
  · simp
  · exact natRepr_ne_nil _

theorem stripChars_wrap (p : Char → Bool) (a b : Char) (inner : List Char)
    (ha : p a = true) (hb : p b = true)
    (hne : inner ≠ []) (hall : ∀ c ∈ inner, p c = false) :
    stripChars p (a :: (inner ++ [b])) = inner := by
  obtain ⟨c, cs, hc⟩ := List.exists_cons_of_ne_nil hne
  unfold stripChars
  rw [List.dropWhile_cons, if_pos (by simp [ha])]
  rw [hc, List.cons_append, List.dropWhile_cons,
    if_neg (by simp [hall c (by rw [hc]; exact List.mem_cons_self c cs)]),
    ← List.cons_append, ← hc]
  rw [List.reverse_concat', List.dropWhile_cons, if_pos (by simp [hb])]
  obtain ⟨d, ds, hd⟩ := List.exists_cons_of_ne_nil
    (show inner.reverse ≠ [] by simpa using hne)
  rw [hd, List.dropWhile_cons,
    if_neg (by simp [hall d (List.mem_reverse.mp (by rw [hd]; exact List.mem_cons_self d ds))]),
    ← hd, List.reverse_reverse]

theorem coordsStr_shape (x y : Int) :
    coordsStr x y = '(' :: ((intRepr x ++ ',' :: intRepr y) ++ [')']) := by
  unfold coordsStr
  simp

theorem stripChars_parens_coords (x y : Int) :
    stripChars parenChar (coordsStr x y) = intRepr x ++ ',' :: intRepr y := by
  rw [coordsStr_shape]
  apply stripChars_wrap
  · decide
  · decide
  · simp
  · intro c hc
    rcases List.mem_append.mp hc with h | h
    · exact parenChar_intRepr x c h
    · rcases List.mem_cons.mp h with h | h
      · rw [h]; decide
      · exact parenChar_intRepr y c h

theorem comma_not_mem_intRepr (i : Int) : ',' ∉ intRepr i :=
  not_mem_intRepr ',' (by decide) (Or.inl (by decide)) i

theorem pySplit_comma_coords (x y : Int) :
    pySplitL [','] (intRepr x ++ ',' :: intRepr y) = [intRepr x, intRepr y] := by
  show pySplit ',' [] (intRepr x ++ ',' :: intRepr y) = _
  have h1 := pySplit_through ',' [] (intRepr y) (intRepr x)
    (noRestart_of_not_mem ',' [] (intRepr x) (comma_not_mem_intRepr x))
  rw [show intRepr x ++ (',' :: ([] : List Char)) ++ intRepr y =
    intRepr x ++ ',' :: intRepr y by simp] at h1
  rw [h1, hasSub_false_split ',' [] (intRepr y)
    (hasSub_false_of_not_mem ',' [] (intRepr y) (comma_not_mem_intRepr y))]

theorem unpack2_pair (a b : List Char) (x y : Int) (ha : pyIntE a = .ok x)
    (hb : pyIntE b = .ok y) : unpack2 [a, b] = .ok (x, y) := by
  show (pyIntE a >>= fun u => pyIntE b >>= fun v => pure (u, v)) = Except.ok (x, y)
  rw [ha, except_bind_ok, hb, except_bind_ok]
  rfl

theorem parseCoords_coordsStr (x y : Int) : parseCoords (coordsStr x y) = .ok (x, y) := by
  unfold parseCoords
  rw [stripChars_parens_coords, pySplit_comma_coords]
  exact unpack2_pair _ _ x y (pyIntE_intRepr x) (pyIntE_intRepr y)

theorem coordsStr_getLast (x y : Int) : (coordsStr x y).getLast? = some ')' := by
  rw [coordsStr_shape,
    show '(' :: ((intRepr x ++ ',' :: intRepr y) ++ [')']) =
      ('(' :: (intRepr x ++ ',' :: intRepr y)) ++ [')'] by simp]
  exact List.getLast?_concat _

theorem squote_not_mem_coordsStr (x y : Int) : squote ∉ coordsStr x y :=
  not_mem_coordsStr squote (by decide) (Or.inl (by decide)) (by decide) (by decide) (by decide) x y

theorem isPre_false_helper (tok pre rest : List Char) (hlen : tok.length ≤ pre.length)
    (hf : isPre tok pre = false) : isPre tok (pre ++ rest) = false := by
  rw [isPre_take tok pre rest hlen]; exact hf

theorem isPre_false_pre (tok pre rest : List Char) (t : Char) (ts : List Char) (c : Char)
    (cs : List Char) (htok : tok = t :: ts) (hpre : pre = c :: cs) (h : (t == c) = false) :
    isPre tok (pre ++ rest) = false := by
  subst htok hpre
  show isPre (t :: ts) (c :: (cs ++ rest)) = false
  simp [isPre, h]

theorem roundtrip_click (x y : Int) (r : String) :
    parse_action (renderAct (.click x y)) r = .ok (expectedAct (.click x y) r) := by
  have hL : renderActL (.click x y) =
      "click(".data ++ ('p' :: ("oint=".data ++ [squote])) ++
        (coordsStr x y ++ squote :: [')']) := by
    show "click(point='".data ++ coordsStr x y ++ "')".data = _
    rw [show "click(point='".data =
        "click(".data ++ ('p' :: ("oint=".data ++ [squote])) from by decide,
      show "')".data = (squote :: [')'] : List Char) from by decide]
    simp [List.append_assoc]
  have h1 : isPre "click".data (renderActL (.click x y)) = true := by
    rw [hL, show "click(".data = "click".data ++ "(".data from by decide]
    simp only [List.append_assoc]
    exact isPre_append _ _
  have h3 : fieldAfter pointMark (renderActL (.click x y)) = .ok (coordsStr x y) := by
    rw [show pointMark = 'p' :: ("oint=".data ++ [squote]) from by decide, hL]
    exact fieldAfter_render 'p' "oint=".data "click(".data (coordsStr x y) [')']
      (by decide) (by decide) (squote_not_mem_coordsStr x y)
      (not_suffix_of_getLast _ _ '=' ')' (by decide) (coordsStr_getLast x y) (by decide))
  have h2 : clickCoords (renderActL (.click x y)) = .ok (x, y) := by
    unfold clickCoords
    have hsub : hasSub pointMark (renderActL (.click x y)) = true := by
      rw [show pointMark = 'p' :: ("oint=".data ++ [squote]) from by decide, hL]
      simp only [List.append_assoc]
      exact hasSub_of_decomp 'p' ("oint=".data ++ [squote]) _ "click(".data
    rw [if_pos hsub]
    unfold getCoordsAfter
    rw [h3, except_bind_ok, parseCoords_coordsStr]
  show parseActionAux (renderActL (.click x y)) (renderAct (.click x y)) r = _
  unfold parseActionAux
  rw [if_pos h1, h2, except_bind_ok]
  rfl

theorem roundtrip_left_double (x y : Int) (r : String) :
    parse_action (renderAct (.left_double x y)) r = .ok (expectedAct (.left_double x y) r) := by
  have hL : renderActL (.left_double x y) =
      "left_double(".data ++ ('s' :: ("tart_box=".data ++ [squote])) ++
        (coordsStr x y ++ squote :: [')']) := by
    show "left_double(start_box='".data ++ coordsStr x y ++ "')".data = _
    rw [show "left_double(start_box='".data =
        "left_double(".data ++ ('s' :: ("tart_box=".data ++ [squote])) from by decide,
      show "')".data = (squote :: [')'] : List Char) from by decide]
    simp [List.append_assoc]
  have hf1 : isPre "click".data (renderActL (.left_double x y)) = false := by
    rw [hL]; simp only [List.append_assoc]
    exact isPre_false_helper _ _ _ (by decide) (by decide)
  have h1 : isPre "left_double".data (renderActL (.left_double x y)) = true := by
    rw [hL, show "left_double(".data = "left_double".data ++ "(".data from by decide]
    simp only [List.append_assoc]
    exact isPre_append _ _
  have h3 : fieldAfter startBoxMark (renderActL (.left_double x y)) = .ok (coordsStr x y) := by
    rw [show startBoxMark = 's' :: ("tart_box=".data ++ [squote]) from by decide, hL]
    exact fieldAfter_render 's' "tart_box=".data "left_double(".data (coordsStr x y) [')']
      (by decide) (by decide) (squote_not_mem_coordsStr x y)
      (not_suffix_of_getLast _ _ '=' ')' (by decide) (coordsStr_getLast x y) (by decide))
  show parseActionAux (renderActL (.left_double x y)) _ r = _
  unfold parseActionAux
  rw [if_neg (by simp [hf1]), if_pos h1]
  unfold getCoordsAfter
  rw [h3, except_bind_ok, parseCoords_coordsStr, except_bind_ok]
  rfl

theorem roundtrip_right_single (x y : Int) (r : String) :
    parse_action (renderAct (.right_single x y)) r = .ok (expectedAct (.right_single x y) r) := by
  have hL : renderActL (.right_single x y) =
      "right_single(".data ++ ('s' :: ("tart_box=".data ++ [squote])) ++
        (coordsStr x y ++ squote :: [')']) := by
    show "right_single(start_box='".data ++ coordsStr x y ++ "')".data = _
    rw [show "right_single(start_box='".data =
        "right_single(".data ++ ('s' :: ("tart_box=".data ++ [squote])) from by decide,
      show "')".data = (squote :: [')'] : List Char) from by decide]
    simp [List.append_assoc]
  have hf1 : isPre "click".data (renderActL (.right_single x y)) = false := by
    rw [hL]; simp only [List.append_assoc]
    exact isPre_false_helper _ _ _ (by decide) (by decide)
  have hf2 : isPre "left_double".data (renderActL (.right_single x y)) = false := by
    rw [hL]; simp only [List.append_assoc]
    exact isPre_false_helper _ _ _ (by decide) (by decide)
  have h1 : isPre "right_single".data (renderActL (.right_single x y)) = true := by
    rw [hL, show "right_single(".data = "right_single".data ++ "(".data from by decide]
    simp only [List.append_assoc]
    exact isPre_append _ _
  have h3 : fieldAfter startBoxMark (renderActL (.right_single x y)) = .ok (coordsStr x y) := by
    rw [show startBoxMark = 's' :: ("tart_box=".data ++ [squote]) from by decide, hL]
    exact fieldAfter_render 's' "tart_box=".data "right_single(".data (coordsStr x y) [')']
      (by decide) (by decide) (squote_not_mem_coordsStr x y)
      (not_suffix_of_getLast _ _ '=' ')' (by decide) (coordsStr_getLast x y) (by decide))
  show parseActionAux (renderActL (.right_single x y)) _ r = _
  unfold parseActionAux
  rw [if_neg (by simp [hf1]), if_neg (by simp [hf2]), if_pos h1]
  unfold getCoordsAfter
  rw [h3, except_bind_ok, parseCoords_coordsStr, except_bind_ok]
  rfl

theorem roundtrip_drag (sx sy ex ey : Int) (r : String) :
    parse_action (renderAct (.drag sx sy ex ey)) r =
      .ok (expectedAct (.drag sx sy ex ey) r) := by
  have hL1 : renderActL (.drag sx sy ex ey) =
      "drag(".data ++ ('s' :: ("tart_box=".data ++ [squote])) ++
        (coordsStr sx sy ++ squote ::
          (", end_box='".data ++ (coordsStr ex ey ++ squote :: [')']))) := by
    show "drag(start_box='".data ++ coordsStr sx sy ++ "', end_box='".data ++
        coordsStr ex ey ++ "')".data = _
    rw [show "drag(start_box='".data =
        "drag(".data ++ ('s' :: ("tart_box=".data ++ [squote])) from by decide,
      show "', end_box='".data = (squote :: ", end_box='".data : List Char) from by decide,
      show "')".data = (squote :: [')'] : List Char) from by decide]
    simp [List.append_assoc]
  have hL2 : renderActL (.drag sx sy ex ey) =
      ("drag(start_box='".data ++ coordsStr sx sy ++ "', ".data) ++
        ('e' :: ("nd_box=".data ++ [squote])) ++ (coordsStr ex ey ++ squote :: [')']) := by
    show "drag(start_box='".data ++ coordsStr sx sy ++ "', end_box='".data ++
        coordsStr ex ey ++ "')".data = _
    rw [show "', end_box='".data =
        "', ".data ++ ('e' :: ("nd_box=".data ++ [squote])) from by decide,
      show "')".data = (squote :: [')'] : List Char) from by decide]
    simp [List.append_assoc]
  have hf1 : isPre "click".data (renderActL (.drag sx sy ex ey)) = false := by
    rw [hL1]; simp only [List.append_assoc]
    exact isPre_false_helper _ _ _ (by decide) (by decide)
  have hf2 : isPre "left_double".data (renderActL (.drag sx sy ex ey)) = false := by
    rw [hL1]; simp only [List.append_assoc]
    exact isPre_false_pre _ _ _ 'l' "eft_double".data 'd' "rag(".data
      (by decide) (by decide) (by decide)
  have hf3 : isPre "right_single".data (renderActL (.drag sx sy ex ey)) = false := by
    rw [hL1]; simp only [List.append_assoc]
    exact isPre_false_pre _ _ _ 'r' "ight_single".data 'd' "rag(".data
      (by decide) (by decide) (by decide)
  have h1 : isPre "drag".data (renderActL (.drag sx sy ex ey)) = true := by
    rw [hL1, show "drag(".data = "drag".data ++ "(".data from by decide]
    simp only [List.append_assoc]
    exact isPre_append _ _
  have hS : fieldAfter startBoxMark (renderActL (.drag sx sy ex ey)) = .ok (coordsStr sx sy) := by
    rw [show startBoxMark = 's' :: ("tart_box=".data ++ [squote]) from by decide, hL1]
    exact fieldAfter_render 's' "tart_box=".data "drag(".data (coordsStr sx sy) _
      (by decide) (by decide) (squote_not_mem_coordsStr sx sy)
      (not_suffix_of_getLast _ _ '=' ')' (by decide) (coordsStr_getLast sx sy) (by decide))
  have hem : 'e' ∉ ("drag(start_box='".data ++ coordsStr sx sy ++ "', ".data) := by
    intro hmem
    rcases List.mem_append.mp hmem with h | h
    · rcases List.mem_append.mp h with h | h
      · revert h; decide
      · exact not_mem_coordsStr 'e' (by decide) (Or.inr (by decide)) (by decide) (by decide)
          (by decide) sx sy h
    · revert h; decide
  have hE : fieldAfter endBoxMark (renderActL (.drag sx sy ex ey)) = .ok (coordsStr ex ey) := by
    rw [show endBoxMark = 'e' :: ("nd_box=".data ++ [squote]) from by decide, hL2]
    exact fieldAfter_render 'e' "nd_box=".data _ (coordsStr ex ey) [')']
      (noRestart_of_not_mem _ _ _ hem) (by decide) (squote_not_mem_coordsStr ex ey)
      (not_suffix_of_getLast _ _ '=' ')' (by decide) (coordsStr_getLast ex ey) (by decide))
  show parseActionAux (renderActL (.drag sx sy ex ey)) _ r = _
  unfold parseActionAux
  rw [if_neg (by simp [hf1]), if_neg (by simp [hf2]), if_neg (by simp [hf3]), if_pos h1]
  rw [hS, except_bind_ok, hE, except_bind_ok, parseCoords_coordsStr, except_bind_ok,
    parseCoords_coordsStr]
  rfl

theorem roundtrip_hotkey (k : String) (hq : squote ∉ k.data) (hs : ¬ "key=".data <:+ k.data)
    (r : String) : parse_action (renderAct (.hotkey k)) r = .ok (expectedAct (.hotkey k) r) := by
  have hL : renderActL (.hotkey k) =
      "hotkey(".data ++ ('k' :: ("ey=".data ++ [squote])) ++ (k.data ++ squote :: [')']) := by
    show "hotkey(key='".data ++ k.data ++ "')".data = _
    rw [show "hotkey(key='".data =
        "hotkey(".data ++ ('k' :: ("ey=".data ++ [squote])) from by decide,
      show "')".data = (squote :: [')'] : List Char) from by decide]
    simp [List.append_assoc]
  have hf1 : isPre "click".data (renderActL (.hotkey k)) = false := by
    rw [hL]; simp only [List.append_assoc]
    exact isPre_false_pre _ _ _ 'c' "lick".data 'h' "otkey(".data (by decide) (by decide) (by decide)
  have hf2 : isPre "left_double".data (renderActL (.hotkey k)) = false := by
    rw [hL]; simp only [List.append_assoc]
    exact isPre_false_pre _ _ _ 'l' "eft_double".data 'h' "otkey(".data
      (by decide) (by decide) (by decide)
  have hf3 : isPre "right_single".data (renderActL (.hotkey k)) = false := by
    rw [hL]; simp only [List.append_assoc]
    exact isPre_false_pre _ _ _ 'r' "ight_single".data 'h' "otkey(".data
      (by decide) (by decide) (by decide)
  have hf4 : isPre "drag".data (renderActL (.hotkey k)) = false := by
    rw [hL]; simp only [List.append_assoc]
    exact isPre_false_pre _ _ _ 'd' "rag".data 'h' "otkey(".data (by decide) (by decide) (by decide)
  have h1 : isPre "hotkey".data (renderActL (.hotkey k)) = true := by
    rw [hL, show "hotkey(".data = "hotkey".data ++ "(".data from by decide]
    simp only [List.append_assoc]
    exact isPre_append _ _
  have h3 : fieldAfter keyMark (renderActL (.hotkey k)) = .ok k.data := by
    rw [show keyMark = 'k' :: ("ey=".data ++ [squote]) from by decide, hL]
    exact fieldAfter_render 'k' "ey=".data "hotkey(".data k.data [')']
      (by decide) (by decide) hq
      (show ¬ ('k' :: "ey=".data) <:+ k.data by
        rw [show ('k' :: "ey=".data : List Char) = "key=".data from by decide]; exact hs)
  show parseActionAux (renderActL (.hotkey k)) _ r = _
  unfold parseActionAux
  rw [if_neg (by simp [hf1]), if_neg (by simp [hf2]), if_neg (by simp [hf3]),
    if_neg (by simp [hf4]), if_pos h1, h3, except_bind_ok]
  rfl

theorem roundtrip_type (c : String) (hq : squote ∉ c.data) (hs : ¬ "content=".data <:+ c.data)
    (r : String) : parse_action (renderAct (.typeText c)) r = .ok (expectedAct (.typeText c) r) := by
  have hL : renderActL (.typeText c) =
      "type(".data ++ ('c' :: ("ontent=".data ++ [squote])) ++ (c.data ++ squote :: [')']) := by
    show "type(content='".data ++ c.data ++ "')".data = _
    rw [show "type(content='".data =
        "type(".data ++ ('c' :: ("ontent=".data ++ [squote])) from by decide,
      show "')".data = (squote :: [')'] : List Char) from by decide]
    simp [List.append_assoc]
  have hf1 : isPre "click".data (renderActL (.typeText c)) = false := by
    rw [hL]; simp only [List.append_assoc]
    exact isPre_false_pre _ _ _ 'c' "lick".data 't' "ype(".data (by decide) (by decide) (by decide)
  have hf2 : isPre "left_double".data (renderActL (.typeText c)) = false := by
    rw [hL]; simp only [List.append_assoc]
    exact isPre_false_pre _ _ _ 'l' "eft_double".data 't' "ype(".data
      (by decide) (by decide) (by decide)
  have hf3 : isPre "right_single".data (renderActL (.typeText c)) = false := by
    rw [hL]; simp only [List.append_assoc]
    exact isPre_false_pre _ _ _ 'r' "ight_single".data 't' "ype(".data
      (by decide) (by decide) (by decide)
  have hf4 : isPre "drag".data (renderActL (.typeText c)) = false := by
    rw [hL]; simp only [List.append_assoc]
    exact isPre_false_pre _ _ _ 'd' "rag".data 't' "ype(".data (by decide) (by decide) (by decide)
  have hf5 : isPre "hotkey".data (renderActL (.typeText c)) = false := by
    rw [hL]; simp only [List.append_assoc]
    exact isPre_false_pre _ _ _ 'h' "otkey".data 't' "ype(".data (by decide) (by decide) (by decide)
  have h1 : isPre "type".data (renderActL (.typeText c)) = true := by
    rw [hL, show "type(".data = "type".data ++ "(".data from by decide]
    simp only [List.append_assoc]
    exact isPre_append _ _
  have h3 : fieldAfter contentMark (renderActL (.typeText c)) = .ok c.data := by
    rw [show contentMark = 'c' :: ("ontent=".data ++ [squote]) from by decide, hL]
    exact fieldAfter_render 'c' "ontent=".data "type(".data c.data [')']
      (by decide) (by decide) hq
      (show ¬ ('c' :: "ontent=".data) <:+ c.data by
        rw [show ('c' :: "ontent=".data : List Char) = "content=".data from by decide]; exact hs)
  show parseActionAux (renderActL (.typeText c)) _ r = _
  unfold parseActionAux
  rw [if_neg (by simp [hf1]), if_neg (by simp [hf2]), if_neg (by simp [hf3]),
    if_neg (by simp [hf4]), if_neg (by simp [hf5]), if_pos h1, h3, except_bind_ok]
  rfl

theorem roundtrip_scroll (x y : Int) (d : String) (hq : squote ∉ d.data)
    (hs : ¬ "direction=".data <:+ d.data) (r : String) :
    parse_action (renderAct (.scroll x y d)) r = .ok (expectedAct (.scroll x y d) r) := by
  have hL : renderActL (.scroll x y d) =
      "scroll(".data ++ ('p' :: ("oint=".data ++ [squote])) ++
        (coordsStr x y ++ squote :: (", direction='".data ++ (d.data ++ squote :: [')']))) := by
    show "scroll(point='".data ++ coordsStr x y ++ "', direction='".data ++
        d.data ++ "')".data = _
    rw [show "scroll(point='".data =
        "scroll(".data ++ ('p' :: ("oint=".data ++ [squote])) from by decide,
      show "', direction='".data = (squote :: ", direction='".data : List Char) from by decide,
      show "')".data = (squote :: [')'] : List Char) from by decide]
    simp [List.append_assoc]
  have hL2 : renderActL (.scroll x y d) =
      ("scroll(point='".data ++ coordsStr x y ++ "', ".data) ++
        ('d' :: ("irection=".data ++ [squote])) ++ (d.data ++ squote :: [')']) := by
    show "scroll(point='".data ++ coordsStr x y ++ "', direction='".data ++
        d.data ++ "')".data = _
    rw [show "', direction='".data =
        "', ".data ++ ('d' :: ("irection=".data ++ [squote])) from by decide,
      show "')".data = (squote :: [')'] : List Char) from by decide]
    simp [List.append_assoc]
  have hf1 : isPre "click".data (renderActL (.scroll x y d)) = false := by
    rw [hL]; simp only [List.append_assoc]
    exact isPre_false_pre _ _ _ 'c' "lick".data 's' "croll(".data (by decide) (by decide) (by decide)
  have hf2 : isPre "left_double".data (renderActL (.scroll x y d)) = false := by
    rw [hL]; simp only [List.append_assoc]
    exact isPre_false_pre _ _ _ 'l' "eft_double".data 's' "croll(".data
      (by decide) (by decide) (by decide)
  have hf3 : isPre "right_single".data (renderActL (.scroll x y d)) = false := by
    rw [hL]; simp only [List.append_assoc]
    exact isPre_false_pre _ _ _ 'r' "ight_single".data 's' "croll(".data
      (by decide) (by decide) (by decide)
  have hf4 : isPre "drag".data (renderActL (.scroll x y d)) = false := by
    rw [hL]; simp only [List.append_assoc]
    exact isPre_false_pre _ _ _ 'd' "rag".data 's' "croll(".data (by decide) (by decide) (by decide)
  have hf5 : isPre "hotkey".data (renderActL (.scroll x y d)) = false := by
    rw [hL]; simp only [List.append_assoc]
    exact isPre_false_pre _ _ _ 'h' "otkey".data 's' "croll(".data (by decide) (by decide) (by decide)
  have hf6 : isPre "type".data (renderActL (.scroll x y d)) = false := by
    rw [hL]; simp only [List.append_assoc]
    exact isPre_false_pre _ _ _ 't' "ype".data 's' "croll(".data (by decide) (by decide) (by decide)
  have h1 : isPre "scroll".data (renderActL (.scroll x y d)) = true := by
    rw [hL, show "scroll(".data = "scroll".data ++ "(".data from by decide]
    simp only [List.append_assoc]
    exact isPre_append _ _
  have h3 : fieldAfter pointMark (renderActL (.scroll x y d)) = .ok (coordsStr x y) := by
    rw [show pointMark = 'p' :: ("oint=".data ++ [squote]) from by decide, hL]
    exact fieldAfter_render 'p' "oint=".data "scroll(".data (coordsStr x y) _
      (by decide) (by decide) (squote_not_mem_coordsStr x y)
      (not_suffix_of_getLast _ _ '=' ')' (by decide) (coordsStr_getLast x y) (by decide))
  have h2 : clickCoords (renderActL (.scroll x y d)) = .ok (x, y) := by
    unfold clickCoords
    have hsub : hasSub pointMark (renderActL (.scroll x y d)) = true := by
      rw [show pointMark = 'p' :: ("oint=".data ++ [squote]) from by decide, hL]
      simp only [List.append_assoc]
      exact hasSub_of_decomp 'p' ("oint=".data ++ [squote]) _ "scroll(".data
    rw [if_pos hsub]
    unfold getCoordsAfter
    rw [h3, except_bind_ok, parseCoords_coordsStr]
  have hdm : 'd' ∉ ("scroll(point='".data ++ coordsStr x y ++ "', ".data) := by
    intro hmem
    rcases List.mem_append.mp hmem with h | h
    · rcases List.mem_append.mp h with h | h
      · revert h; decide
      · exact not_mem_coordsStr 'd' (by decide) (Or.inr (by decide)) (by decide) (by decide)
          (by decide) x y h
    · revert h; decide
  have hD : fieldAfter directionMark (renderActL (.scroll x y d)) = .ok d.data := by
    rw [show directionMark = 'd' :: ("irection=".data ++ [squote]) from by decide, hL2]
    exact fieldAfter_render 'd' "irection=".data _ d.data [')']
      (noRestart_of_not_mem _ _ _ hdm) (by decide) hq
      (show ¬ ('d' :: "irection=".data) <:+ d.data by
        rw [show ('d' :: "irection=".data : List Char) = "direction=".data from by decide]
        exact hs)
  show parseActionAux (renderActL (.scroll x y d)) _ r = _
  unfold parseActionAux
  rw [if_neg (by simp [hf1]), if_neg (by simp [hf2]), if_neg (by simp [hf3]),
    if_neg (by simp [hf4]), if_neg (by simp [hf5]), if_neg (by simp [hf6]), if_pos h1,
    h2, except_bind_ok, hD]
  rfl

theorem roundtrip_wait (r : String) :
    parse_action (renderAct .wait) r = .ok (expectedAct .wait r) := by
  show parseActionAux "wait()".data _ r = _
  unfold parseActionAux
  rw [if_neg (by decide), if_neg (by decide), if_neg (by decide), if_neg (by decide),
    if_neg (by decide), if_neg (by decide), if_neg (by decide), if_pos (by decide)]
  rfl

theorem roundtrip_finished (c : String) (hq : squote ∉ c.data)
    (hs : ¬ "content=".data <:+ c.data) (r : String) :
    parse_action (renderAct (.finished c)) r = .ok (expectedAct (.finished c) r) := by
  have hL : renderActL (.finished c) =
      "finished(".data ++ ('c' :: ("ontent=".data ++ [squote])) ++
        (c.data ++ squote :: [')']) := by
    show "finished(content='".data ++ c.data ++ "')".data = _
    rw [show "finished(content='".data =
        "finished(".data ++ ('c' :: ("ontent=".data ++ [squote])) from by decide,
      show "')".data = (squote :: [')'] : List Char) from by decide]
    simp [List.append_assoc]
  have hf1 : isPre "click".data (renderActL (.finished c)) = false := by
    rw [hL]; simp only [List.append_assoc]
    exact isPre_false_pre _ _ _ 'c' "lick".data 'f' "inished(".data
      (by decide) (by decide) (by decide)
  have hf2 : isPre "left_double".data (renderActL (.finished c)) = false := by
    rw [hL]; simp only [List.append_assoc]
    exact isPre_false_pre _ _ _ 'l' "eft_double".data 'f' "inished(".data
      (by decide) (by decide) (by decide)
  have hf3 : isPre "right_single".data (renderActL (.finished c)) = false := by
    rw [hL]; simp only [List.append_assoc]
    exact isPre_false_pre _ _ _ 'r' "ight_single".data 'f' "inished(".data
      (by decide) (by decide) (by decide)
  have hf4 : isPre "drag".data (renderActL (.finished c)) = false := by
    rw [hL]; simp only [List.append_assoc]
    exact isPre_false_pre _ _ _ 'd' "rag".data 'f' "inished(".data
      (by decide) (by decide) (by decide)
  have hf5 : isPre "hotkey".data (renderActL (.finished c)) = false := by
    rw [hL]; simp only [List.append_assoc]
    exact isPre_false_pre _ _ _ 'h' "otkey".data 'f' "inished(".data
      (by decide) (by decide) (by decide)
  have hf6 : isPre "type".data (renderActL (.finished c)) = false := by
    rw [hL]; simp only [List.append_assoc]
    exact isPre_false_pre _ _ _ 't' "ype".data 'f' "inished(".data
      (by decide) (by decide) (by decide)
  have hf7 : isPre "scroll".data (renderActL (.finished c)) = false := by
    rw [hL]; simp only [List.append_assoc]
    exact isPre_false_pre _ _ _ 's' "croll".data 'f' "inished(".data
      (by decide) (by decide) (by decide)
  have hf8 : isPre "wait".data (renderActL (.finished c)) = false := by
    rw [hL]; simp only [List.append_assoc]
    exact isPre_false_pre _ _ _ 'w' "ait".data 'f' "inished(".data
      (by decide) (by decide) (by decide)
  have h1 : isPre "finished".data (renderActL (.finished c)) = true := by
    rw [hL, show "finished(".data = "finished".data ++ "(".data from by decide]
    simp only [List.append_assoc]
    exact isPre_append _ _
  have h3 : fieldAfter contentMark (renderActL (.finished c)) = .ok c.data := by
    rw [show contentMark = 'c' :: ("ontent=".data ++ [squote]) from by decide, hL]
    exact fieldAfter_render 'c' "ontent=".data "finished(".data c.data [')']
      (by decide) (by decide) hq
      (show ¬ ('c' :: "ontent=".data) <:+ c.data by
        rw [show ('c' :: "ontent=".data : List Char) = "content=".data from by decide]; exact hs)
  show parseActionAux (renderActL (.finished c)) _ r = _
  unfold parseActionAux
  rw [if_neg (by simp [hf1]), if_neg (by simp [hf2]), if_neg (by simp [hf3]),
    if_neg (by simp [hf4]), if_neg (by simp [hf5]), if_neg (by simp [hf6]),
    if_neg (by simp [hf7]), if_neg (by simp [hf8]), if_pos h1, h3, except_bind_ok]
  rfl

theorem roundtrip_goto_url (u : String) (hq : squote ∉ u.data)
    (hs : ¬ "url=".data <:+ u.data) (r : String) :
    parse_action (renderAct (.goto_url u)) r = .ok (expectedAct (.goto_url u) r) := by
  have hL : renderActL (.goto_url u) =
      "goto_url(".data ++ ('u' :: ("rl=".data ++ [squote])) ++ (u.data ++ squote :: [')']) := by
    show "goto_url(url='".data ++ u.data ++ "')".data = _
    rw [show "goto_url(url='".data =
        "goto_url(".data ++ ('u' :: ("rl=".data ++ [squote])) from by decide,
      show "')".data = (squote :: [')'] : List Char) from by decide]
    simp [List.append_assoc]
  have hf1 : isPre "click".data (renderActL (.goto_url u)) = false := by
    rw [hL]; simp only [List.append_assoc]
    exact isPre_false_pre _ _ _ 'c' "lick".data 'g' "oto_url(".data
      (by decide) (by decide) (by decide)
  have hf2 : isPre "left_double".data (renderActL (.goto_url u)) = false := by
    rw [hL]; simp only [List.append_assoc]
    exact isPre_false_pre _ _ _ 'l' "eft_double".data 'g' "oto_url(".data
      (by decide) (by decide) (by decide)
  have hf3 : isPre "right_single".data (renderActL (.goto_url u)) = false := by
    rw [hL]; simp only [List.append_assoc]
    exact isPre_false_pre _ _ _ 'r' "ight_single".data 'g' "oto_url(".data
      (by decide) (by decide) (by decide)
  have hf4 : isPre "drag".data (renderActL (.goto_url u)) = false := by
    rw [hL]; simp only [List.append_assoc]
    exact isPre_false_pre _ _ _ 'd' "rag".data 'g' "oto_url(".data
      (by decide) (by decide) (by decide)
  have hf5 : isPre "hotkey".data (renderActL (.goto_url u)) = false := by
    rw [hL]; simp only [List.append_assoc]
    exact isPre_false_pre _ _ _ 'h' "otkey".data 'g' "oto_url(".data
      (by decide) (by decide) (by decide)
  have hf6 : isPre "type".data (renderActL (.goto_url u)) = false := by
    rw [hL]; simp only [List.append_assoc]
    exact isPre_false_pre _ _ _ 't' "ype".data 'g' "oto_url(".data
      (by decide) (by decide) (by decide)
  have hf7 : isPre "scroll".data (renderActL (.goto_url u)) = false := by
    rw [hL]; simp only [List.append_assoc]
    exact isPre_false_pre _ _ _ 's' "croll".data 'g' "oto_url(".data
      (by decide) (by decide) (by decide)
  have hf8 : isPre "wait".data (renderActL (.goto_url u)) = false := by
    rw [hL]; simp only [List.append_assoc]
    exact isPre_false_pre _ _ _ 'w' "ait".data 'g' "oto_url(".data
      (by decide) (by decide) (by decide)
  have hf9 : isPre "finished".data (renderActL (.goto_url u)) = false := by
    rw [hL]; simp only [List.append_assoc]
    exact isPre_false_pre _ _ _ 'f' "inished".data 'g' "oto_url(".data
      (by decide) (by decide) (by decide)
  have h1 : isPre "goto_url".data (renderActL (.goto_url u)) = true := by
    rw [hL, show "goto_url(".data = "goto_url".data ++ "(".data from by decide]
    simp only [List.append_assoc]
    exact isPre_append _ _
  have h3 : fieldAfter urlMark (renderActL (.goto_url u)) = .ok u.data := by
    rw [show urlMark = 'u' :: ("rl=".data ++ [squote]) from by decide, hL]
    exact fieldAfter_render 'u' "rl=".data "goto_url(".data u.data [')']
      (by decide) (by decide) hq
      (show ¬ ('u' :: "rl=".data) <:+ u.data by
        rw [show ('u' :: "rl=".data : List Char) = "url=".data from by decide]; exact hs)
  show parseActionAux (renderActL (.goto_url u)) _ r = _
  unfold parseActionAux
  rw [if_neg (by simp [hf1]), if_neg (by simp [hf2]), if_neg (by simp [hf3]),
    if_neg (by simp [hf4]), if_neg (by simp [hf5]), if_neg (by simp [hf6]),
    if_neg (by simp [hf7]), if_neg (by simp [hf8]), if_neg (by simp [hf9]), if_pos h1,
    h3, except_bind_ok]
  rfl

theorem loopGo_zero (b : Behavior) (k : Nat) (s : LoopState) :
    loopGo b 0 k s = (s, [], false) := rfl

theorem loopGo_succ (b : Behavior) (fuel k : Nat) (s : LoopState) :
    loopGo b (fuel + 1) k s =
      if is_task_completed b.planOk s.actions_done then (s, [], false)
      else if MAX_ACTIONS ≤ s.actions_this_session then (s, [], false)
      else
        match b.nextTask k with
        | none =>
          ({ s with actions_done := s.actions_done ++ ["finish"] }, [.terminalDecision], false)
        | some d =>
          if d.action == "finish" then
            ({ s with actions_done := s.actions_done ++ ["finish"] },
              [.terminalDecision], false)
          else
            if execute_browser_action (b.browserOk k) (chooseActionType d (b.visual k)) then
              if b.waitOk k then
                ((loopGo b fuel (k + 1)
                  { update_state_and_actions (b.stateUpdate k)
                      (chooseActionType d (b.visual k)) true s with
                    actions_this_session := s.actions_this_session + 1 }).1,
                  .acted (chooseActionType d (b.visual k)) true ::
                    (loopGo b fuel (k + 1)
                      { update_state_and_actions (b.stateUpdate k)
                          (chooseActionType d (b.visual k)) true s with
                        actions_this_session := s.actions_this_session + 1 }).2.1,
                  (loopGo b fuel (k + 1)
                    { update_state_and_actions (b.stateUpdate k)
                        (chooseActionType d (b.visual k)) true s with
                      actions_this_session := s.actions_this_session + 1 }).2.2)
              else
                ({ update_state_and_actions (b.stateUpdate k)
                    (chooseActionType d (b.visual k)) true s with
                  actions_this_session := s.actions_this_session + 1 },
                  [.acted (chooseActionType d (b.visual k)) true], true)
            else
              (update_state_and_actions (b.stateUpdate k)
                (chooseActionType d (b.visual k)) false s,
                [.acted (chooseActionType d (b.visual k)) false], false) := by
  rfl

theorem loopGo_succ_none (b : Behavior) (fuel k : Nat) (s : LoopState)
    (hnt : b.nextTask k = none) :
    loopGo b (fuel + 1) k s =
      if is_task_completed b.planOk s.actions_done then (s, [], false)
      else if MAX_ACTIONS ≤ s.actions_this_session then (s, [], false)
      else ({ s with actions_done := s.actions_done ++ ["finish"] },
        [.terminalDecision], false) := by
  rw [loopGo_succ, hnt]

theorem loopGo_succ_some (b : Behavior) (fuel k : Nat) (s : LoopState) (d : Directive)
    (hnt : b.nextTask k = some d) :
    loopGo b (fuel + 1) k s =
      if is_task_completed b.planOk s.actions_done then (s, [], false)
      else if MAX_ACTIONS ≤ s.actions_this_session then (s, [], false)
      else if d.action == "finish" then
        ({ s with actions_done := s.actions_done ++ ["finish"] }, [.terminalDecision], false)
      else if execute_browser_action (b.browserOk k) (chooseActionType d (b.visual k)) then
        if b.waitOk k then
          ((loopGo b fuel (k + 1)
            { update_state_and_actions (b.stateUpdate k)
                (chooseActionType d (b.visual k)) true s with
              actions_this_session := s.actions_this_session + 1 }).1,
            .acted (chooseActionType d (b.visual k)) true ::
              (loopGo b fuel (k + 1)
                { update_state_and_actions (b.stateUpdate k)
                    (chooseActionType d (b.visual k)) true s with
                  actions_this_session := s.actions_this_session + 1 }).2.1,
            (loopGo b fuel (k + 1)
              { update_state_and_actions (b.stateUpdate k)
                  (chooseActionType d (b.visual k)) true s with
                actions_this_session := s.actions_this_session + 1 }).2.2)
        else
          ({ update_state_and_actions (b.stateUpdate k)
              (chooseActionType d (b.visual k)) true s with
            actions_this_session := s.actions_this_session + 1 },
            [.acted (chooseActionType d (b.visual k)) true], true)
      else
        (update_state_and_actions (b.stateUpdate k) (chooseActionType d (b.visual k)) false s,
          [.acted (chooseActionType d (b.visual k)) false], false) := by
  rw [loopGo_succ, hnt]

theorem actedCount_nil : actedCount [] = 0 := rfl

theorem actedCount_acted (t : String) (x : Bool) (evs : List IterEvent) :
    actedCount (.acted t x :: evs) = actedCount evs + 1 := by
  simp [actedCount, List.filter]

theorem actedCount_terminal (evs : List IterEvent) :
    actedCount (.terminalDecision :: evs) = actedCount evs := by
  simp [actedCount, List.filter]

theorem loopGo_big_ats (b : Behavior) (fuel k : Nat) (s : LoopState)
    (h : MAX_ACTIONS ≤ s.actions_this_session) : loopGo b fuel k s = (s, [], false) := by
  cases fuel with
  | zero => rfl
  | succ fuel =>
    rw [loopGo_succ]
    by_cases h1 : is_task_completed b.planOk s.actions_done = true
    · rw [if_pos h1]
    · rw [if_neg h1, if_pos h]

theorem loopGo_fuel_irrelevant (b : Behavior) :
    ∀ f₁ f₂ k s, MAX_ACTIONS + 1 ≤ f₁ + s.actions_this_session →
      MAX_ACTIONS + 1 ≤ f₂ + s.actions_this_session →
      loopGo b f₁ k s = loopGo b f₂ k s := by
  intro f₁
  induction f₁ with
  | zero =>
    intro f₂ k s h1 h2
    rw [loopGo_zero, loopGo_big_ats b f₂ k s (by omega)]
  | succ f ih =>
    intro f₂ k s h1 h2
    cases f₂ with
    | zero =>
      rw [loopGo_zero, loopGo_big_ats b (f + 1) k s (by omega)]
    | succ g =>
      cases hnt : b.nextTask k with
      | none => rw [loopGo_succ_none b f k s hnt, loopGo_succ_none b g k s hnt]
      | some d =>
        rw [loopGo_succ_some b f k s d hnt, loopGo_succ_some b g k s d hnt]
        by_cases hc1 : is_task_completed b.planOk s.actions_done = true
        · rw [if_pos hc1, if_pos hc1]
        · rw [if_neg hc1, if_neg hc1]
          by_cases hc2 : MAX_ACTIONS ≤ s.actions_this_session
          · rw [if_pos hc2, if_pos hc2]
          · rw [if_neg hc2, if_neg hc2]
            by_cases hc3 : (d.action == "finish") = true
            · rw [if_pos hc3, if_pos hc3]
            · rw [if_neg hc3, if_neg hc3]
              by_cases hc4 : execute_browser_action (b.browserOk k)
                  (chooseActionType d (b.visual k)) = true
              · rw [if_pos hc4, if_pos hc4]
                by_cases hc5 : b.waitOk k = true
                · rw [if_pos hc5, if_pos hc5, ih g (k + 1) _ (by simp; omega) (by simp; omega)]
                · rw [if_neg hc5, if_neg hc5]
              · rw [if_neg hc4, if_neg hc4]

theorem loopGo_acted_le (b : Behavior) :
    ∀ fuel k s, actedCount (loopGo b fuel k s).2.1 + s.actions_this_session ≤ MAX_ACTIONS ∨
      actedCount (loopGo b fuel k s).2.1 = 0 := by
  intro fuel
  induction fuel with
  | zero => intro k s; right; rw [loopGo_zero]; rfl
  | succ fuel ih =>
    intro k s
    cases hnt : b.nextTask k with
    | none =>
      rw [loopGo_succ_none b fuel k s hnt]
      by_cases hc1 : is_task_completed b.planOk s.actions_done = true
      · right; rw [if_pos hc1]; rfl
      · rw [if_neg hc1]
        by_cases hc2 : MAX_ACTIONS ≤ s.actions_this_session
        · right; rw [if_pos hc2]; rfl
        · right; rw [if_neg hc2]; rfl
    | some d =>
      rw [loopGo_succ_some b fuel k s d hnt]
      by_cases hc1 : is_task_completed b.planOk s.actions_done = true
      · right; rw [if_pos hc1]; rfl
      · rw [if_neg hc1]
        by_cases hc2 : MAX_ACTIONS ≤ s.actions_this_session
        · right; rw [if_pos hc2]; rfl
        · rw [if_neg hc2]
          by_cases hc3 : (d.action == "finish") = true
          · right; rw [if_pos hc3]; rfl
          · rw [if_neg hc3]
            by_cases hc4 : execute_browser_action (b.browserOk k)
                (chooseActionType d (b.visual k)) = true
            · rw [if_pos hc4]
              by_cases hc5 : b.waitOk k = true
              · rw [if_pos hc5]
                left
                show actedCount (IterEvent.acted (chooseActionType d (b.visual k)) true ::
                  (loopGo b fuel (k + 1)
                    { update_state_and_actions (b.stateUpdate k)
                        (chooseActionType d (b.visual k)) true s with
                      actions_this_session := s.actions_this_session + 1 }).2.1) +
                  s.actions_this_session ≤ MAX_ACTIONS
                rw [actedCount_acted]
                rcases ih (k + 1)
                    { update_state_and_actions (b.stateUpdate k)
                        (chooseActionType d (b.visual k)) true s with
                      actions_this_session := s.actions_this_session + 1 } with h | h
                · have hS : ({ update_state_and_actions (b.stateUpdate k)
                      (chooseActionType d (b.visual k)) true s with
                      actions_this_session := s.actions_this_session + 1 } :
                        LoopState).actions_this_session = s.actions_this_session + 1 := rfl
                  rw [hS] at h
                  omega
                · rw [h]; omega
              · rw [if_neg hc5]
                left
                show actedCount [IterEvent.acted (chooseActionType d (b.visual k)) true] +
                  s.actions_this_session ≤ MAX_ACTIONS
                rw [actedCount_acted, actedCount_nil]
                omega
            · rw [if_neg hc4]
              left
              show actedCount [IterEvent.acted (chooseActionType d (b.visual k)) false] +
                s.actions_this_session ≤ MAX_ACTIONS
              rw [actedCount_acted, actedCount_nil]
              omega

theorem loopGo_actions (b : Behavior) :
    ∀ fuel k s, (loopGo b fuel k s).1.actions_done =
      s.actions_done ++ (loopGo b fuel k s).2.1.filterMap eventEntry := by
  intro fuel
  induction fuel with
  | zero => intro k s; rw [loopGo_zero]; simp
  | succ fuel ih =>
    intro k s
    cases hnt : b.nextTask k with
    | none =>
      rw [loopGo_succ_none b fuel k s hnt]
      by_cases hc1 : is_task_completed b.planOk s.actions_done = true
      · rw [if_pos hc1]; simp
      · rw [if_neg hc1]
        by_cases hc2 : MAX_ACTIONS ≤ s.actions_this_session
        · rw [if_pos hc2]; simp
        · rw [if_neg hc2]; simp [eventEntry]
    | some d =>
      rw [loopGo_succ_some b fuel k s d hnt]
      by_cases hc1 : is_task_completed b.planOk s.actions_done = true
      · rw [if_pos hc1]; simp
      · rw [if_neg hc1]
        by_cases hc2 : MAX_ACTIONS ≤ s.actions_this_session
        · rw [if_pos hc2]; simp
        · rw [if_neg hc2]
          by_cases hc3 : (d.action == "finish") = true
          · rw [if_pos hc3]; simp [eventEntry]
          · rw [if_neg hc3]
            by_cases hc4 : execute_browser_action (b.browserOk k)
                (chooseActionType d (b.visual k)) = true
            · rw [if_pos hc4]
              by_cases hc5 : b.waitOk k = true
              · rw [if_pos hc5]
                have hih := ih (k + 1)
                  { update_state_and_actions (b.stateUpdate k)
                      (chooseActionType d (b.visual k)) true s with
                    actions_this_session := s.actions_this_session + 1 }
                have hS : ({ update_state_and_actions (b.stateUpdate k)
                    (chooseActionType d (b.visual k)) true s with
                    actions_this_session := s.actions_this_session + 1 } :
                      LoopState).actions_done =
                    s.actions_done ++ [chooseActionType d (b.visual k)] := rfl
                rw [hS] at hih
                show (loopGo b fuel (k + 1) _).1.actions_done = _
                rw [hih]
                simp [eventEntry, List.append_assoc]
              · rw [if_neg hc5]
                show ({ update_state_and_actions (b.stateUpdate k)
                    (chooseActionType d (b.visual k)) true s with
                  actions_this_session := s.actions_this_session + 1 } :
                    LoopState).actions_done = _
                simp [update_state_and_actions, eventEntry]
            · rw [if_neg hc4]
              show (update_state_and_actions (b.stateUpdate k)
                (chooseActionType d (b.visual k)) false s).actions_done = _
              simp [update_state_and_actions, eventEntry]

theorem loopGo_fail_last (b : Behavior) :
    ∀ fuel k s l₁ t l₂, (loopGo b fuel k s).2.1 = l₁ ++ .acted t false :: l₂ → l₂ = [] := by
  intro fuel
  induction fuel with
  | zero =>
    intro k s l₁ t l₂ h
    rw [loopGo_zero] at h
    cases l₁ <;> simp_all
  | succ fuel ih =>
    intro k s l₁ t l₂ h
    cases hnt : b.nextTask k with
    | none =>
      rw [loopGo_succ_none b fuel k s hnt] at h
      by_cases hc1 : is_task_completed b.planOk s.actions_done = true
      · rw [if_pos hc1] at h; cases l₁ <;> simp_all
      · rw [if_neg hc1] at h
        by_cases hc2 : MAX_ACTIONS ≤ s.actions_this_session
        · rw [if_pos hc2] at h; cases l₁ <;> simp_all
        · rw [if_neg hc2] at h; cases l₁ <;> simp_all
    | some d =>
      rw [loopGo_succ_some b fuel k s d hnt] at h
      by_cases hc1 : is_task_completed b.planOk s.actions_done = true
      · rw [if_pos hc1] at h; cases l₁ <;> simp_all
      · rw [if_neg hc1] at h
        by_cases hc2 : MAX_ACTIONS ≤ s.actions_this_session
        · rw [if_pos hc2] at h; cases l₁ <;> simp_all
        · rw [if_neg hc2] at h
          by_cases hc3 : (d.action == "finish") = true
          · rw [if_pos hc3] at h; cases l₁ <;> simp_all
          · rw [if_neg hc3] at h
            by_cases hc4 : execute_browser_action (b.browserOk k)
                (chooseActionType d (b.visual k)) = true
            · rw [if_pos hc4] at h
              by_cases hc5 : b.waitOk k = true
              · rw [if_pos hc5] at h
                cases l₁ with
                | nil => simp at h
                | cons e l₁ =>
                  simp only [List.cons_append, List.cons.injEq] at h
                  exact ih (k + 1) _ l₁ t l₂ h.2
              · rw [if_neg hc5] at h
                cases l₁ <;> simp_all
            · rw [if_neg hc4] at h
              cases l₁ with
              | nil => simp at h; exact h.2
              | cons e l₁ => simp at h

theorem loopGo_terminal_at (b : Behavior) :
    ∀ fuel k s i e, (loopGo b fuel k s).2.1.get? i = some e →
      (b.nextTask (k + i) = none ∨ ∃ d, b.nextTask (k + i) = some d ∧ d.action = "finish") →
      e = .terminalDecision ∧ (loopGo b fuel k s).2.1.length = i + 1 := by
  intro fuel
  induction fuel with
  | zero =>
    intro k s i e h _
    rw [loopGo_zero] at h
    simp at h
  | succ fuel ih =>
    intro k s i e h hterm
    cases hnt : b.nextTask k with
    | none =>
      rw [loopGo_succ_none b fuel k s hnt] at h ⊢
      by_cases hc1 : is_task_completed b.planOk s.actions_done = true
      · rw [if_pos hc1] at h; simp at h
      · rw [if_neg hc1] at h ⊢
        by_cases hc2 : MAX_ACTIONS ≤ s.actions_this_session
        · rw [if_pos hc2] at h; simp at h
        · rw [if_neg hc2] at h ⊢
          cases i with
          | zero => simp at h; exact ⟨h.symm, by simp⟩
          | succ j => simp at h
    | some d =>
      rw [loopGo_succ_some b fuel k s d hnt] at h ⊢
      by_cases hc1 : is_task_completed b.planOk s.actions_done = true
      · rw [if_pos hc1] at h; simp at h
      · rw [if_neg hc1] at h ⊢
        by_cases hc2 : MAX_ACTIONS ≤ s.actions_this_session
        · rw [if_pos hc2] at h; simp at h
        · rw [if_neg hc2] at h ⊢
          by_cases hc3 : (d.action == "finish") = true
          · rw [if_pos hc3] at h ⊢
            cases i with
            | zero => simp at h; exact ⟨h.symm, by simp⟩
            | succ j => simp at h
          · rw [if_neg hc3] at h ⊢
            by_cases hc4 : execute_browser_action (b.browserOk k)
                (chooseActionType d (b.visual k)) = true
            · rw [if_pos hc4] at h ⊢
              by_cases hc5 : b.waitOk k = true
              · rw [if_pos hc5] at h ⊢
                cases i with
                | zero =>
                  exfalso
                  simp only [Nat.add_zero] at hterm
                  rcases hterm with hx | ⟨d2, hd2, hfin⟩
                  · rw [hnt] at hx; exact Option.noConfusion hx
                  · rw [hnt] at hd2
                    have : d = d2 := by injection hd2
                    rw [← this] at hfin
                    rw [hfin] at hc3
                    simp at hc3
                | succ j =>
                  simp only [List.get?_cons_succ] at h
                  have hterm2 : b.nextTask (k + 1 + j) = none ∨
                      ∃ d2, b.nextTask (k + 1 + j) = some d2 ∧ d2.action = "finish" := by
                    rw [show k + 1 + j = k + (j + 1) from by omega]
                    exact hterm
                  obtain ⟨he, hlen⟩ := ih (k + 1) _ j e h hterm2
                  refine ⟨he, ?_⟩
                  simp [hlen]
              · rw [if_neg hc5] at h ⊢
                cases i with
                | zero =>
                  exfalso
                  simp only [Nat.add_zero] at hterm
                  rcases hterm with hx | ⟨d2, hd2, hfin⟩
                  · rw [hnt] at hx; exact Option.noConfusion hx
                  · rw [hnt] at hd2
                    have : d = d2 := by injection hd2
                    rw [← this] at hfin
                    rw [hfin] at hc3
                    simp at hc3
                | succ j => simp at h
            · rw [if_neg hc4] at h ⊢
              cases i with
              | zero =>
                exfalso
                simp only [Nat.add_zero] at hterm
                rcases hterm with hx | ⟨d2, hd2, hfin⟩
                · rw [hnt] at hx; exact Option.noConfusion hx
                · rw [hnt] at hd2
                  have : d = d2 := by injection hd2
                  rw [← this] at hfin
                  rw [hfin] at hc3
                  simp at hc3
              | succ j => simp at h

theorem loopGo_raise_wait (b : Behavior) :
    ∀ fuel k s, (loopGo b fuel k s).2.2 = true → ∃ i, b.waitOk i = false := by
  intro fuel
  induction fuel with
  | zero =>
    intro k s h
    rw [loopGo_zero] at h
    simp at h
  | succ fuel ih =>
    intro k s h
    cases hnt : b.nextTask k with
    | none =>
      rw [loopGo_succ_none b fuel k s hnt] at h
      by_cases hc1 : is_task_completed b.planOk s.actions_done = true
      · rw [if_pos hc1] at h; simp at h
      · rw [if_neg hc1] at h
        by_cases hc2 : MAX_ACTIONS ≤ s.actions_this_session
        · rw [if_pos hc2] at h; simp at h
        · rw [if_neg hc2] at h; simp at h
    | some d =>
      rw [loopGo_succ_some b fuel k s d hnt] at h
      by_cases hc1 : is_task_completed b.planOk s.actions_done = true
      · rw [if_pos hc1] at h; simp at h
      · rw [if_neg hc1] at h
        by_cases hc2 : MAX_ACTIONS ≤ s.actions_this_session
        · rw [if_pos hc2] at h; simp at h
        · rw [if_neg hc2] at h
          by_cases hc3 : (d.action == "finish") = true
          · rw [if_pos hc3] at h; simp at h
          · rw [if_neg hc3] at h
            by_cases hc4 : execute_browser_action (b.browserOk k)
                (chooseActionType d (b.visual k)) = true
            · rw [if_pos hc4] at h
              by_cases hc5 : b.waitOk k = true
              · rw [if_pos hc5] at h
                exact ih (k + 1) _ h
              · exact ⟨k, by simpa using hc5⟩
            · rw [if_neg hc4] at h; simp at h

theorem loopGo_steady (b : Behavior) (hplan : b.planOk = true)
    (hsteady : ∀ i, steadyAt b i) :
    ∀ n k s, s.actions_this_session + n = MAX_ACTIONS →
      s.actions_done.length = s.actions_this_session →
      "finish" ∉ s.actions_done →
      ∀ fuel, n < fuel →
      (loopGo b fuel k s).2.1.length = n ∧ actedCount (loopGo b fuel k s).2.1 = n ∧
        IterEvent.terminalDecision ∉ (loopGo b fuel k s).2.1 ∧
        (loopGo b fuel k s).2.2 = false := by
  intro n
  induction n with
  | zero =>
    intro k s hn hlen hfin fuel hfuel
    cases fuel with
    | zero => omega
    | succ f =>
      have hc1 : is_task_completed b.planOk s.actions_done = true := by
        rw [hplan]
        unfold is_task_completed
        rw [if_neg (by decide)]
        by_cases hcon : s.actions_done.contains "finish" = true
        · rw [if_pos hcon]
        · rw [if_neg hcon, if_pos (show MAX_ACTIONS ≤ s.actions_done.length by omega)]
      rw [loopGo_succ, if_pos hc1]
      exact ⟨rfl, rfl, by simp, rfl⟩
  | succ m ih =>
    intro k s hn hlen hfin fuel hfuel
    cases fuel with
    | zero => omega
    | succ f =>
      obtain ⟨d, hnt, hdfin, hcfin, hdisp, hwait⟩ := hsteady k
      have hconN : s.actions_done.contains "finish" = false := by
        cases hx : s.actions_done.contains "finish"
        · rfl
        · exact absurd (List.mem_of_elem_eq_true hx) hfin
      have hc1 : is_task_completed b.planOk s.actions_done = false := by
        rw [hplan]
        unfold is_task_completed
        rw [if_neg (by decide), if_neg (by rw [hconN]; exact Bool.false_ne_true),
          if_neg (show ¬ MAX_ACTIONS ≤ s.actions_done.length by omega)]
      have hc2 : ¬ MAX_ACTIONS ≤ s.actions_this_session := by omega
      have hc3 : (d.action == "finish") = false := by
        cases hx : d.action == "finish"
        · rfl
        · exact absurd (eq_of_beq hx) hdfin
      rw [loopGo_succ_some b f k s d hnt,
        if_neg (by rw [hc1]; exact Bool.false_ne_true), if_neg hc2,
        if_neg (by rw [hc3]; exact Bool.false_ne_true), if_pos hdisp, if_pos hwait]
      have hS1 : ({ update_state_and_actions (b.stateUpdate k)
          (chooseActionType d (b.visual k)) true s with
          actions_this_session := s.actions_this_session + 1 } :
            LoopState).actions_this_session = s.actions_this_session + 1 := rfl
      have hS2 : ({ update_state_and_actions (b.stateUpdate k)
          (chooseActionType d (b.visual k)) true s with
          actions_this_session := s.actions_this_session + 1 } :
            LoopState).actions_done =
          s.actions_done ++ [chooseActionType d (b.visual k)] := rfl
      obtain ⟨ih1, ih2, ih3, ih4⟩ := ih (k + 1)
        { update_state_and_actions (b.stateUpdate k)
            (chooseActionType d (b.visual k)) true s with
          actions_this_session := s.actions_this_session + 1 }
        (by rw [hS1]; omega)
        (by rw [hS1, hS2, List.length_append, hlen, List.length_singleton])
        (by
          rw [hS2]
          intro hx
          rcases List.mem_append.mp hx with hx | hx
          · exact hfin hx
          · rw [List.mem_singleton] at hx
            exact hcfin hx.symm)
        f (by omega)
      refine ⟨?_, ?_, ?_, ?_⟩
      · show (IterEvent.acted (chooseActionType d (b.visual k)) true ::
            (loopGo b f (k + 1)
              { update_state_and_actions (b.stateUpdate k)
                  (chooseActionType d (b.visual k)) true s with
                actions_this_session := s.actions_this_session + 1 }).2.1).length = m + 1
        rw [List.length_cons, ih1]
      · show actedCount (IterEvent.acted (chooseActionType d (b.visual k)) true ::
            (loopGo b f (k + 1)
              { update_state_and_actions (b.stateUpdate k)
                  (chooseActionType d (b.visual k)) true s with
                actions_this_session := s.actions_this_session + 1 }).2.1) = m + 1
        rw [actedCount_acted, ih2]
      · show IterEvent.terminalDecision ∉
          IterEvent.acted (chooseActionType d (b.visual k)) true ::
            (loopGo b f (k + 1)
              { update_state_and_actions (b.stateUpdate k)
                  (chooseActionType d (b.visual k)) true s with
                actions_this_session := s.actions_this_session + 1 }).2.1
        intro hx
        rcases List.mem_cons.mp hx with hx | hx
        · exact IterEvent.noConfusion hx
        · exact ih3 hx
      · exact ih4

theorem main_loop_acted_le (b : Behavior) : actedCount (main_loop b).2.1 ≤ MAX_ACTIONS := by
  unfold main_loop
  by_cases hb : b.planOk = true
  · rw [if_pos hb]
    rcases loopGo_acted_le b (MAX_ACTIONS + 1) 0 initState with h | h
    · have h0 : initState.actions_this_session = 0 := rfl
      rw [h0] at h
      omega
    · rw [h]; omega
  · rw [if_neg hb]; decide

theorem main_loop_actions (b : Behavior) :
    (main_loop b).1.actions_done = (main_loop b).2.1.filterMap eventEntry := by
  unfold main_loop
  by_cases hb : b.planOk = true
  · rw [if_pos hb]
    have h := loopGo_actions b (MAX_ACTIONS + 1) 0 initState
    have h0 : initState.actions_done = [] := rfl
    rw [h0] at h
    simpa using h
  · rw [if_neg hb]; rfl

theorem main_loop_fail_last (b : Behavior) (l₁ : List IterEvent) (t : String)
    (l₂ : List IterEvent) (h : (main_loop b).2.1 = l₁ ++ .acted t false :: l₂) : l₂ = [] := by
  unfold main_loop at h
  by_cases hb : b.planOk = true
  · rw [if_pos hb] at h
    exact loopGo_fail_last b (MAX_ACTIONS + 1) 0 initState l₁ t l₂ h
  · rw [if_neg hb] at h
    cases l₁ <;> simp_all

theorem main_loop_terminal_at (b : Behavior) (i : Nat) (e : IterEvent)
    (h : (main_loop b).2.1.get? i = some e)
    (hterm : b.nextTask i = none ∨ ∃ d, b.nextTask i = some d ∧ d.action = "finish") :
    e = .terminalDecision ∧ (main_loop b).2.1.length = i + 1 := by
  unfold main_loop at h ⊢
  by_cases hb : b.planOk = true
  · rw [if_pos hb] at h ⊢
    exact loopGo_terminal_at b (MAX_ACTIONS + 1) 0 initState i e h (by simpa using hterm)
  · rw [if_neg hb] at h; simp at h

theorem main_loop_raise_wait (b : Behavior) (h : (main_loop b).2.2 = true) :
    ∃ i, b.waitOk i = false := by
  unfold main_loop at h
  by_cases hb : b.planOk = true
  · rw [if_pos hb] at h
    exact loopGo_raise_wait b (MAX_ACTIONS + 1) 0 initState h
  · rw [if_neg hb] at h; simp at h

theorem main_loop_exhaust (b : Behavior) (hplan : b.planOk = true)
    (hsteady : ∀ i, steadyAt b i) :
    (main_loop b).2.1.length = MAX_ACTIONS ∧
      actedCount (main_loop b).2.1 = MAX_ACTIONS ∧
      IterEvent.terminalDecision ∉ (main_loop b).2.1 ∧ (main_loop b).2.2 = false := by
  unfold main_loop
  rw [if_pos hplan]
  have h0 : initState.actions_this_session = 0 := rfl
  exact loopGo_steady b hplan hsteady MAX_ACTIONS 0 initState (by rw [h0]; omega)
    rfl (by intro hx; exact absurd hx (List.not_mem_nil _)) (MAX_ACTIONS + 1) (by omega)

theorem except_pure_inj {α : Type} (x y : α) (h : (pure x : Except PyErr α) = .ok y) : x = y :=
  Except.ok.inj h

theorem except_pure_ne_err {α : Type} (x : α) (e : PyErr)
    (h : (pure x : Except PyErr α) = .error e) : False :=
  Except.noConfusion h

theorem bind_ok_cases {α β : Type} (m : Except PyErr α) (f : α → Except PyErr β) (b : β)
    (h : (m >>= f) = .ok b) : ∃ x, m = .ok x ∧ f x = .ok b :=
  (except_bind_eq_ok m f b).mp h

theorem bind_err_cases {α β : Type} (m : Except PyErr α) (f : α → Except PyErr β) (e : PyErr)
    (h : (m >>= f) = .error e) : m = .error e ∨ ∃ x, m = .ok x ∧ f x = .error e :=
  (except_bind_eq_err m f e).mp h

theorem idx1E_error (l : List (List Char)) (e : PyErr) (h : idx1E l = .error e) :
    e = .indexError := by
  rcases l with _ | ⟨a, _ | ⟨b, rest⟩⟩
  · exact (Except.error.inj h).symm
  · exact (Except.error.inj h).symm
  · exact absurd h (fun hh => Except.noConfusion hh)

theorem fieldAfter_error (sep a : List Char) (e : PyErr) (h : fieldAfter sep a = .error e) :
    e = .indexError := by
  unfold fieldAfter at h
  rcases bind_err_cases _ _ _ h with h1 | ⟨x, _, h1⟩
  · exact idx1E_error _ _ h1
  · exact (except_pure_ne_err _ _ h1).elim

theorem pyIntE_error (l : List Char) (e : PyErr) (h : pyIntE l = .error e) :
    ∃ lit, e = .intValueError lit := by
  unfold pyIntE at h
  cases hp : pyInt l with
  | some n => rw [hp] at h; exact absurd h (fun hh => Except.noConfusion hh)
  | none => rw [hp] at h; exact ⟨⟨l⟩, (Except.error.inj h).symm⟩

theorem unpack2_error (l : List (List Char)) (e : PyErr) (h : unpack2 l = .error e) :
    e = .unpackError ∨ ∃ lit, e = .intValueError lit := by
  rcases l with _ | ⟨a, _ | ⟨b, _ | ⟨c, rest⟩⟩⟩
  · exact Or.inl (Except.error.inj h).symm
  · rcases bind_err_cases _ _ _ h with h1 | ⟨x, _, h1⟩
    · exact Or.inr (pyIntE_error _ _ h1)
    · exact Or.inl (Except.error.inj h1).symm
  · rcases bind_err_cases _ _ _ h with h1 | ⟨x, _, h1⟩
    · exact Or.inr (pyIntE_error _ _ h1)
    · rcases bind_err_cases _ _ _ h1 with h2 | ⟨y, _, h2⟩
      · exact Or.inr (pyIntE_error _ _ h2)
      · exact (except_pure_ne_err _ _ h2).elim
  · rcases bind_err_cases _ _ _ h with h1 | ⟨x, _, h1⟩
    · exact Or.inr (pyIntE_error _ _ h1)
    · rcases bind_err_cases _ _ _ h1 with h2 | ⟨y, _, h2⟩
      · exact Or.inr (pyIntE_error _ _ h2)
      · rcases bind_err_cases _ _ _ h2 with h3 | ⟨z, _, h3⟩
        · exact Or.inr (pyIntE_error _ _ h3)
        · exact Or.inl (Except.error.inj h3).symm

theorem parseCoords_error (c : List Char) (e : PyErr) (h : parseCoords c = .error e) :
    e = .unpackError ∨ ∃ lit, e = .intValueError lit := by
  unfold parseCoords at h
  exact unpack2_error _ _ h

theorem getCoordsAfter_error (sep a : List Char) (e : PyErr)
    (h : getCoordsAfter sep a = .error e) :
    e = .indexError ∨ e = .unpackError ∨ ∃ lit, e = .intValueError lit := by
  unfold getCoordsAfter at h
  rcases bind_err_cases _ _ _ h with h1 | ⟨c, _, h1⟩
  · exact Or.inl (fieldAfter_error _ _ _ h1)
  · have h2 : parseCoords c = .error e := h1
    rcases parseCoords_error _ _ h2 with h3 | h3
    · exact Or.inr (Or.inl h3)
    · exact Or.inr (Or.inr h3)

theorem clickCoords_error (a : List Char) (e : PyErr) (h : clickCoords a = .error e) :
    e = .indexError ∨ e = .unpackError ∨ ∃ lit, e = .intValueError lit := by
  unfold clickCoords at h
  by_cases hp : hasSub pointMark a = true
  · rw [if_pos hp] at h; exact getCoordsAfter_error _ _ _ h
  · rw [if_neg hp] at h; exact getCoordsAfter_error _ _ _ h

theorem parse_action_ok_keys (action reasoning : String) (act : Action)
    (h : parse_action action reasoning = .ok act) :
    act.action ∈ supportedKinds ∧ act.args.map Prod.fst = requiredKeys act.action := by
  unfold parse_action parseActionAux at h
  by_cases hb1 : isPre "click".data action.data = true
  · rw [if_pos hb1] at h
    obtain ⟨⟨x, y⟩, _, h1⟩ := bind_ok_cases _ _ _ h
    obtain rfl := except_pure_inj _ _ h1
    exact ⟨(by decide : ("click" : String) ∈ supportedKinds), rfl⟩
  · rw [if_neg hb1] at h
    by_cases hb2 : isPre "left_double".data action.data = true
    · rw [if_pos hb2] at h
      obtain ⟨⟨x, y⟩, _, h1⟩ := bind_ok_cases _ _ _ h
      obtain rfl := except_pure_inj _ _ h1
      exact ⟨(by decide : ("left_double" : String) ∈ supportedKinds), rfl⟩
    · rw [if_neg hb2] at h
      by_cases hb3 : isPre "right_single".data action.data = true
      · rw [if_pos hb3] at h
        obtain ⟨⟨x, y⟩, _, h1⟩ := bind_ok_cases _ _ _ h
        obtain rfl := except_pure_inj _ _ h1
        exact ⟨(by decide : ("right_single" : String) ∈ supportedKinds), rfl⟩
      · rw [if_neg hb3] at h
        by_cases hb4 : isPre "drag".data action.data = true
        · rw [if_pos hb4] at h
          obtain ⟨sc, _, h1⟩ := bind_ok_cases _ _ _ h
          obtain ⟨ec, _, h2⟩ := bind_ok_cases _ _ _ h1
          obtain ⟨⟨sx, sy⟩, _, h3⟩ := bind_ok_cases _ _ _ h2
          obtain ⟨⟨ex, ey⟩, _, h4⟩ := bind_ok_cases _ _ _ h3
          obtain rfl := except_pure_inj _ _ h4
          exact ⟨(by decide : ("drag" : String) ∈ supportedKinds), rfl⟩
        · rw [if_neg hb4] at h
          by_cases hb5 : isPre "hotkey".data action.data = true
          · rw [if_pos hb5] at h
            obtain ⟨k, _, h1⟩ := bind_ok_cases _ _ _ h
            obtain rfl := except_pure_inj _ _ h1
            exact ⟨(by decide : ("hotkey" : String) ∈ supportedKinds), rfl⟩
          · rw [if_neg hb5] at h
            by_cases hb6 : isPre "type".data action.data = true
            · rw [if_pos hb6] at h
              obtain ⟨c, _, h1⟩ := bind_ok_cases _ _ _ h
              obtain rfl := except_pure_inj _ _ h1
              exact ⟨(by decide : ("type" : String) ∈ supportedKinds), rfl⟩
            · rw [if_neg hb6] at h
              by_cases hb7 : isPre "scroll".data action.data = true
              · rw [if_pos hb7] at h
                obtain ⟨⟨x, y⟩, _, h1⟩ := bind_ok_cases _ _ _ h
                obtain ⟨d, _, h2⟩ := bind_ok_cases _ _ _ h1
                obtain rfl := except_pure_inj _ _ h2
                exact ⟨(by decide : ("scroll" : String) ∈ supportedKinds), rfl⟩
              · rw [if_neg hb7] at h
                by_cases hb8 : isPre "wait".data action.data = true
                · rw [if_pos hb8] at h
                  obtain rfl := except_pure_inj _ _ h
                  exact ⟨(by decide : ("wait" : String) ∈ supportedKinds), rfl⟩
                · rw [if_neg hb8] at h
                  by_cases hb9 : isPre "finished".data action.data = true
                  · rw [if_pos hb9] at h
                    obtain ⟨c, _, h1⟩ := bind_ok_cases _ _ _ h
                    obtain rfl := except_pure_inj _ _ h1
                    exact ⟨(by decide : ("finished" : String) ∈ supportedKinds), rfl⟩
                  · rw [if_neg hb9] at h
                    by_cases hb10 : isPre "goto_url".data action.data = true
                    · rw [if_pos hb10] at h
                      obtain ⟨u, _, h1⟩ := bind_ok_cases _ _ _ h
                      obtain rfl := except_pure_inj _ _ h1
                      exact ⟨(by decide : ("goto_url" : String) ∈ supportedKinds), rfl⟩
                    · rw [if_neg hb10] at h
                      exact absurd h (fun hh => Except.noConfusion hh)

theorem parse_action_error_class (action reasoning : String) (e : PyErr)
    (h : parse_action action reasoning = .error e) :
    e = .indexError ∨ e = .unpackError ∨ (∃ lit, e = .intValueError lit) ∨
      e = .invalidAction action := by
  unfold parse_action parseActionAux at h
  by_cases hb1 : isPre "click".data action.data = true
  · rw [if_pos hb1] at h
    rcases bind_err_cases _ _ _ h with h1 | ⟨⟨x, y⟩, _, h1⟩
    · rcases clickCoords_error _ _ h1 with h2 | h2 | h2
      · exact Or.inl h2
      · exact Or.inr (Or.inl h2)
      · exact Or.inr (Or.inr (Or.inl h2))
    · exact (except_pure_ne_err _ _ h1).elim
  · rw [if_neg hb1] at h
    by_cases hb2 : isPre "left_double".data action.data = true
    · rw [if_pos hb2] at h
      rcases bind_err_cases _ _ _ h with h1 | ⟨⟨x, y⟩, _, h1⟩
      · rcases getCoordsAfter_error _ _ _ h1 with h2 | h2 | h2
        · exact Or.inl h2
        · exact Or.inr (Or.inl h2)
        · exact Or.inr (Or.inr (Or.inl h2))
      · exact (except_pure_ne_err _ _ h1).elim
    · rw [if_neg hb2] at h
      by_cases hb3 : isPre "right_single".data action.data = true
      · rw [if_pos hb3] at h
        rcases bind_err_cases _ _ _ h with h1 | ⟨⟨x, y⟩, _, h1⟩
        · rcases getCoordsAfter_error _ _ _ h1 with h2 | h2 | h2
          · exact Or.inl h2
          · exact Or.inr (Or.inl h2)
          · exact Or.inr (Or.inr (Or.inl h2))
        · exact (except_pure_ne_err _ _ h1).elim
      · rw [if_neg hb3] at h
        by_cases hb4 : isPre "drag".data action.data = true
        · rw [if_pos hb4] at h
          rcases bind_err_cases _ _ _ h with h1 | ⟨sc, _, h1⟩
          · exact Or.inl (fieldAfter_error _ _ _ h1)
          · rcases bind_err_cases _ _ _ h1 with h2 | ⟨ec, _, h2⟩
            · exact Or.inl (fieldAfter_error _ _ _ h2)
            · rcases bind_err_cases _ _ _ h2 with h3 | ⟨⟨sx, sy⟩, _, h3⟩
              · rcases parseCoords_error _ _ h3 with h4 | h4
                · exact Or.inr (Or.inl h4)
                · exact Or.inr (Or.inr (Or.inl h4))
              · rcases bind_err_cases _ _ _ h3 with h4 | ⟨⟨ex, ey⟩, _, h4⟩
                · rcases parseCoords_error _ _ h4 with h5 | h5
                  · exact Or.inr (Or.inl h5)
                  · exact Or.inr (Or.inr (Or.inl h5))
                · exact (except_pure_ne_err _ _ h4).elim
        · rw [if_neg hb4] at h
          by_cases hb5 : isPre "hotkey".data action.data = true
          · rw [if_pos hb5] at h
            rcases bind_err_cases _ _ _ h with h1 | ⟨k, _, h1⟩
            · exact Or.inl (fieldAfter_error _ _ _ h1)
            · exact (except_pure_ne_err _ _ h1).elim
          · rw [if_neg hb5] at h
            by_cases hb6 : isPre "type".data action.data = true
            · rw [if_pos hb6] at h
              rcases bind_err_cases _ _ _ h with h1 | ⟨c, _, h1⟩
              · exact Or.inl (fieldAfter_error _ _ _ h1)
              · exact (except_pure_ne_err _ _ h1).elim
            · rw [if_neg hb6] at h
              by_cases hb7 : isPre "scroll".data action.data = true
              · rw [if_pos hb7] at h
                rcases bind_err_cases _ _ _ h with h1 | ⟨⟨x, y⟩, _, h1⟩
                · rcases clickCoords_error _ _ h1 with h2 | h2 | h2
                  · exact Or.inl h2
                  · exact Or.inr (Or.inl h2)
                  · exact Or.inr (Or.inr (Or.inl h2))
                · rcases bind_err_cases _ _ _ h1 with h2 | ⟨d, _, h2⟩
                  · exact Or.inl (fieldAfter_error _ _ _ h2)
                  · exact (except_pure_ne_err _ _ h2).elim
              · rw [if_neg hb7] at h
                by_cases hb8 : isPre "wait".data action.data = true
                · rw [if_pos hb8] at h
                  exact (except_pure_ne_err _ _ h).elim
                · rw [if_neg hb8] at h
                  by_cases hb9 : isPre "finished".data action.data = true
                  · rw [if_pos hb9] at h
                    rcases bind_err_cases _ _ _ h with h1 | ⟨c, _, h1⟩
                    · exact Or.inl (fieldAfter_error _ _ _ h1)
                    · exact (except_pure_ne_err _ _ h1).elim
                  · rw [if_neg hb9] at h
                    by_cases hb10 : isPre "goto_url".data action.data = true
                    · rw [if_pos hb10] at h
                      rcases bind_err_cases _ _ _ h with h1 | ⟨u, _, h1⟩
                      · exact Or.inl (fieldAfter_error _ _ _ h1)
                      · exact (except_pure_ne_err _ _ h1).elim
                    · rw [if_neg hb10] at h
                      exact Or.inr (Or.inr (Or.inr (Except.error.inj h).symm))

theorem parse_action_unrecognized (action reasoning : String)
    (h : startsAnyKind action.data = false) :
    parse_action action reasoning = .error (.invalidAction action) := by
  simp only [startsAnyKind, supportedKinds, List.any_cons, List.any_nil,
    Bool.or_eq_false_iff] at h
  obtain ⟨h1, h2, h3, h4, h5, h6, h7, h8, h9, h10, -⟩ := h
  simp [parse_action, parseActionAux, h1, h2, h3, h4, h5, h6, h7, h8, h9, h10]

theorem startBoxAction_click_data (x y : Int) : (startBoxAction "click" x y).data =
    "click(".data ++ ('s' :: ("tart_box=".data ++ [squote])) ++
      (coordsStr x y ++ squote :: [')']) := by
  show "click".data ++ ("(start_box='".data ++ (coordsStr x y ++ "')".data)) = _
  rw [show "click(".data = "click".data ++ "(".data from by decide,
    show "(start_box='".data = "(".data ++ ('s' :: ("tart_box=".data ++ [squote]))
      from by decide,
    show "')".data = (squote :: [')'] : List Char) from by decide]
  simp [List.append_assoc]

theorem click_start_box (x y : Int) (r : String) :
    parse_action (startBoxAction "click" x y) r =
      .ok ⟨"click", [("x", intStr x), ("y", intStr y)], r⟩ := by
  have hL := startBoxAction_click_data x y
  have h1 : isPre "click".data (startBoxAction "click" x y).data = true := by
    show isPre "click".data
      ("click".data ++ ("(start_box='".data ++ (coordsStr x y ++ "')".data))) = true
    exact isPre_append _ _
  have hnop : hasSub pointMark (startBoxAction "click" x y).data = false := by
    rw [show pointMark = 'p' :: "oint='".data from by decide]
    apply hasSub_false_of_not_mem
    rw [hL]
    intro hmem
    simp only [List.mem_append, List.mem_cons, List.mem_singleton] at hmem
    rcases hmem with (h | h | h) | h | h | h
    · exact absurd h (by decide)
    · exact absurd h (by decide)
    · exact absurd h (by decide)
    · exact not_mem_coordsStr 'p' (by decide) (Or.inr (by decide)) (by decide) (by decide)
        (by decide) x y h
    · exact absurd h (by decide)
    · exact absurd h (by decide)
  have h3 : fieldAfter startBoxMark (startBoxAction "click" x y).data = .ok (coordsStr x y) := by
    rw [show startBoxMark = 's' :: ("tart_box=".data ++ [squote]) from by decide, hL]
    exact fieldAfter_render 's' "tart_box=".data "click(".data (coordsStr x y) [')']
      (by decide) (by decide) (squote_not_mem_coordsStr x y)
      (not_suffix_of_getLast _ _ '=' ')' (by decide) (coordsStr_getLast x y) (by decide))
  have h2 : clickCoords (startBoxAction "click" x y).data = .ok (x, y) := by
    unfold clickCoords
    rw [if_neg (by simp [hnop])]
    unfold getCoordsAfter
    rw [h3, except_bind_ok, parseCoords_coordsStr]
  show parseActionAux (startBoxAction "click" x y).data _ r = _
  unfold parseActionAux
  rw [if_pos h1, h2, except_bind_ok]
  rfl

theorem parse_action_wait_pre (s reasoning : String) (h : isPre "wait".data s.data = true) :
    parse_action s reasoning = .ok ⟨"wait", [], reasoning⟩ := by
  obtain ⟨rest, hrest⟩ := isPre_exists "wait".data s.data h
  have hf1 : isPre "click".data ("wait".data ++ rest) = false :=
    isPre_false_pre _ _ _ 'c' "lick".data 'w' "ait".data (by decide) (by decide) (by decide)
  have hf2 : isPre "left_double".data ("wait".data ++ rest) = false :=
    isPre_false_pre _ _ _ 'l' "eft_double".data 'w' "ait".data (by decide) (by decide) (by decide)
  have hf3 : isPre "right_single".data ("wait".data ++ rest) = false :=
    isPre_false_pre _ _ _ 'r' "ight_single".data 'w' "ait".data (by decide) (by decide) (by decide)
  have hf4 : isPre "drag".data ("wait".data ++ rest) = false :=
    isPre_false_pre _ _ _ 'd' "rag".data 'w' "ait".data (by decide) (by decide) (by decide)
  have hf5 : isPre "hotkey".data ("wait".data ++ rest) = false :=
    isPre_false_pre _ _ _ 'h' "otkey".data 'w' "ait".data (by decide) (by decide) (by decide)
  have hf6 : isPre "type".data ("wait".data ++ rest) = false :=
    isPre_false_pre _ _ _ 't' "ype".data 'w' "ait".data (by decide) (by decide) (by decide)
  have hf7 : isPre "scroll".data ("wait".data ++ rest) = false :=
    isPre_false_pre _ _ _ 's' "croll".data 'w' "ait".data (by decide) (by decide) (by decide)
  have h8 : isPre "wait".data ("wait".data ++ rest) = true := isPre_append _ _
  show parseActionAux s.data s reasoning = _
  rw [hrest]
  unfold parseActionAux
  rw [if_neg (by rw [hf1]; exact Bool.false_ne_true),
    if_neg (by rw [hf2]; exact Bool.false_ne_true),
    if_neg (by rw [hf3]; exact Bool.false_ne_true),
    if_neg (by rw [hf4]; exact Bool.false_ne_true),
    if_neg (by rw [hf5]; exact Bool.false_ne_true),
    if_neg (by rw [hf6]; exact Bool.false_ne_true),
    if_neg (by rw [hf7]; exact Bool.false_ne_true), if_pos h8]
  rfl

theorem hasSub_skip_head (s0 : Char) (srest : List Char) (c : Char) (rest : List Char)
    (hc : (s0 == c) = false) :
    hasSub (s0 :: srest) (c :: rest) = hasSub (s0 :: srest) rest := by
  simp [hasSub, isPre, hc]

theorem hasSub_temp_pre (s0 : Char) (srest : List Char)
    (h1 : (s0 == 't') = false) (h2 : (s0 == 'e') = false) (h3 : (s0 == 'm') = false)
    (h4 : (s0 == 'p') = false) (h5 : (s0 == ' ') = false) (l : List Char) :
    hasSub (s0 :: srest) ("temp ".data ++ l) = hasSub (s0 :: srest) l := by
  rw [show "temp ".data = ('t' :: 'e' :: 'm' :: 'p' :: [' '] : List Char) from by decide]
  simp only [List.cons_append, List.nil_append]
  rw [hasSub_skip_head _ _ _ _ h1, hasSub_skip_head _ _ _ _ h2, hasSub_skip_head _ _ _ _ h3,
    hasSub_skip_head _ _ _ _ h4, hasSub_skip_head _ _ _ _ h5]

theorem vlm_extract_fails (T : List Char)
    (h : hasSub "Thought: ".data T = false ∨ hasSub "Action: ".data T = false) :
    ∃ e, vlm_extract T = .error e := by
  unfold vlm_extract
  rcases h with h | h
  · have hsp : pySplitL "Thought: ".data T = [T] := by
      show pySplit 'T' "hought: ".data T = [T]
      exact hasSub_false_split 'T' "hought: ".data T
        (by rw [show ('T' :: "hought: ".data : List Char) = "Thought: ".data from by decide]
            exact h)
    refine ⟨.indexError, ?_⟩
    rw [hsp]
    rfl
  · cases h1 : idx1E (pySplitL "Thought: ".data T) with
    | error e => exact ⟨e, rfl⟩
    | ok seg =>
      have hsp : pySplitL "Action: ".data T = [T] := by
        show pySplit 'A' "ction: ".data T = [T]
        exact hasSub_false_split 'A' "ction: ".data T
          (by rw [show ('A' :: "ction: ".data : List Char) = "Action: ".data from by decide]
              exact h)
      refine ⟨.indexError, ?_⟩
      rw [hsp]
      rfl

theorem vlm_call_on_response_error (t : String) (e : PyErr)
    (he : vlm_extract ("temp ".data ++ t.data) = .error e) :
    vlm_call_on_response t = .ok ⟨"error", [], ⟨"temp ".data ++ t.data⟩⟩ := by
  unfold vlm_call_on_response
  simp only [he]

theorem vlm_error_of_missing (t : String)
    (h : hasSub "Thought: ".data t.data = false ∨ hasSub "Action: ".data t.data = false) :
    vlm_call_on_response t = .ok ⟨"error", [], ⟨"temp ".data ++ t.data⟩⟩ := by
  have hT : hasSub "Thought: ".data ("temp ".data ++ t.data) = false ∨
      hasSub "Action: ".data ("temp ".data ++ t.data) = false := by
    rcases h with h | h
    · left
      rw [show "Thought: ".data = ('T' :: "hought: ".data : List Char) from by decide] at h ⊢
      rw [hasSub_temp_pre 'T' "hought: ".data (by decide) (by decide) (by decide) (by decide)
        (by decide) t.data]
      exact h
    · right
      rw [show "Action: ".data = ('A' :: "ction: ".data : List Char) from by decide] at h ⊢
      rw [hasSub_temp_pre 'A' "ction: ".data (by decide) (by decide) (by decide) (by decide)
        (by decide) t.data]
      exact h
  obtain ⟨e, he⟩ := vlm_extract_fails _ hT
  exact vlm_call_on_response_error t e he

/-- C1: for every action string the parser accepts, the returned `Action`
has a supported kind and its `args` carry exactly the keys that kind
requires (no more, no fewer), in the parser's insertion order. -/
theorem C1_parser_args_exact_keys (action reasoning : String) (act : Action)
    (h : parse_action action reasoning = .ok act) :
    act.action ∈ supportedKinds ∧ act.args.map Prod.fst = requiredKeys act.action :=
  parse_action_ok_keys action reasoning act h

/-- C1 witness: the documented click example parses, and its args keys are
exactly `x, y`. -/
theorem C1_parser_args_exact_keys_witness :
    ("click" : String) ∈ supportedKinds ∧
      ([("x", "120"), ("y", "340")] : List (String × String)).map Prod.fst =
        requiredKeys "click" :=
  C1_parser_args_exact_keys "click(point='(120,340)')" "r"
    ⟨"click", [("x", "120"), ("y", "340")], "r"⟩ (by decide)

/-- C2 counterexample: a click with a missing `point='`/`start_box='` marker
fails with a bare `IndexError` that names no field and carries no raw input
text, refuting the claim that every parse failure names the offending field
and carries the raw text. -/
theorem C2_error_counterexample :
    parse_action "click(12,34)" "" = .error .indexError ∧
      PyErr.indexError ≠ .invalidAction "click(12,34)" :=
  ⟨by decide, by decide⟩

/-- C2 (amended): the parser never returns a partially filled `Action` on a
malformed input — it fails — but the error is a bare `IndexError` (missing
marker), a bare unpack error, an `int()` `ValueError` carrying only the
offending coordinate literal, or, exactly when no kind token starts the
input, a `ValueError` carrying the raw input text; no error names the
offending field. -/
theorem C2_parser_error_taxonomy (action reasoning : String) :
    (∀ e, parse_action action reasoning = .error e →
      e = .indexError ∨ e = .unpackError ∨ (∃ lit, e = .intValueError lit) ∨
        e = .invalidAction action) ∧
    (startsAnyKind action.data = false →
      parse_action action reasoning = .error (.invalidAction action)) :=
  ⟨parse_action_error_class action reasoning, parse_action_unrecognized action reasoning⟩

/-- C2 witness: the unrecognized-token example fails with `ValueError`
carrying the raw text. -/
theorem C2_parser_error_taxonomy_witness :
    parse_action "unknown_cmd(foo='bar')" "" =
      .error (.invalidAction "unknown_cmd(foo='bar')") :=
  (C2_parser_error_taxonomy "unknown_cmd(foo='bar')" "").2 (by decide)

/-- C3 counterexample: rendering a `type` content containing a single quote
with the spec's documented escape (`\'`) and parsing it back loses the
content — extraction stops at the first quote, escaped or not — so the
round-trip fails for args with escaped quotes. -/
theorem C3_roundtrip_counterexample :
    parse_action ⟨renderSpecL (.typeText "it's")⟩ "" =
      .ok ⟨"type", [("content", "it\\")], ""⟩ ∧
      ("it\\" : String) ≠ "it's" :=
  ⟨by decide, by decide⟩

/-- C3 (amended): the render-then-parse round-trip returns exactly the same
kind and args for every supported kind, provided each string-valued
argument contains no single quote at all (not merely no unescaped one) and
does not end in its own marker's `key=` text. -/
theorem C3_roundtrip_amended (v : ActVal) (r : String) (h : validArgs v) :
    parse_action (renderAct v) r = .ok (expectedAct v r) := by
  cases v with
  | click x y => exact roundtrip_click x y r
  | left_double x y => exact roundtrip_left_double x y r
  | right_single x y => exact roundtrip_right_single x y r
  | drag sx sy ex ey => exact roundtrip_drag sx sy ex ey r
  | hotkey k => exact roundtrip_hotkey k h.1 h.2 r
  | typeText c => exact roundtrip_type c h.1 h.2 r
  | scroll x y d => exact roundtrip_scroll x y d h.1 h.2 r
  | wait => exact roundtrip_wait r
  | finished c => exact roundtrip_finished c h.1 h.2 r
  | goto_url u => exact roundtrip_goto_url u h.1 h.2 r

/-- C3 witness: a quote-free `type` content round-trips. -/
theorem C3_roundtrip_amended_witness :
    validArgs (.typeText "hello") ∧
      parse_action (renderAct (.typeText "hello")) "" =
        .ok (expectedAct (.typeText "hello") "") :=
  ⟨⟨by decide, by decide⟩, C3_roundtrip_amended (.typeText "hello") "" ⟨by decide, by decide⟩⟩

/-- C4 counterexample: `left_double` with its coordinates embedded as
`point='(x,y)'` does not parse — only `click` consults the `point='`
marker; `left_double` and `right_single` read `start_box='` alone and fail
with `IndexError` here, refuting "same coordinate extraction as click". -/
theorem C4_point_counterexample :
    parse_action "left_double(point='(3,4)')" "" = .error .indexError := by decide

/-- C4 (amended): `click` extracts its coordinate pair from either
`point='(x,y)'` or `start_box='(x,y)'`, while `left_double` and
`right_single` accept `start_box='(x,y)'`; in each of these cases the
parsed args are the embedded base-10 integers. -/
theorem C4_coordinate_markers (x y : Int) (r : String) :
    parse_action (renderAct (.click x y)) r = .ok (expectedAct (.click x y) r) ∧
    parse_action (startBoxAction "click" x y) r =
      .ok ⟨"click", [("x", intStr x), ("y", intStr y)], r⟩ ∧
    parse_action (renderAct (.left_double x y)) r = .ok (expectedAct (.left_double x y) r) ∧
    parse_action (renderAct (.right_single x y)) r = .ok (expectedAct (.right_single x y) r) :=
  ⟨roundtrip_click x y r, click_start_box x y r, roundtrip_left_double x y r,
    roundtrip_right_single x y r⟩

/-- C5 counterexample: with a first dispatch that fails, the run records
exactly one Acting event and stops — it neither reaches the iteration bound
nor a later terminal action, refuting "a dispatch failure never terminates
the session". -/
theorem C5_dispatch_failure_counterexample :
    (main_loop bFail).2.1 = [.acted "type" false] ∧
      IterEvent.terminalDecision ∉ (main_loop bFail).2.1 ∧ MAX_ACTIONS ≠ 1 := by
  refine ⟨by decide, by decide, by decide⟩

/-- C5 (amended): a dispatch failure terminates the session at once: in
every run, an iteration whose Acting phase fails is the last iteration of
the loop. -/
theorem C5_dispatch_failure_breaks (b : Behavior) (l₁ : List IterEvent) (t : String)
    (l₂ : List IterEvent) (h : (main_loop b).2.1 = l₁ ++ .acted t false :: l₂) :
    l₂ = [] :=
  main_loop_fail_last b l₁ t l₂ h

/-- C5 witness: the failing-dispatch run, with the failed event last. -/
theorem C5_dispatch_failure_breaks_witness :
    (main_loop bFail).2.1 = [] ++ .acted "type" false :: [] ∧ ([] : List IterEvent) = [] :=
  ⟨by decide, C5_dispatch_failure_breaks bFail [] "type" [] (by decide)⟩

/-- C6 counterexample: the bound-reaching session need not end normally —
with every dispatch succeeding but the uncaught
`browser_instance.active_page.wait_for_timeout(1000)` call raising after
the tenth, bound-reaching iteration, the run performs all `MAX_ACTIONS`
Acting phases and then an exception propagates out of the loop instead of
the session ending with a result, refuting "ends the session normally ...
rather than raising an exception". -/
theorem C6_raise_counterexample :
    (main_loop bWaitCrash).2.2 = true ∧
      actedCount (main_loop bWaitCrash).2.1 = MAX_ACTIONS ∧
      IterEvent.terminalDecision ∉ (main_loop bWaitCrash).2.1 := by
  refine ⟨by decide, by decide, by decide⟩

/-- C6 (amended): for every behavior of the collaborators the loop
dispatches at most `MAX_ACTIONS` actions; the only way the loop can raise
is the uncaught per-iteration wait call; and for every behavior whose
iterations all decide a non-terminal action, dispatch successfully and
whose waits all return, the session runs exactly `MAX_ACTIONS` iterations
and ends normally (no exception, no terminal decision), handing its final
state to the external summarizer. -/
theorem C6_loop_bound :
    (∀ b : Behavior, actedCount (main_loop b).2.1 ≤ MAX_ACTIONS) ∧
    (∀ b : Behavior, (main_loop b).2.2 = true → ∃ i, b.waitOk i = false) ∧
    (∀ b : Behavior, b.planOk = true → (∀ i, steadyAt b i) →
      (main_loop b).2.1.length = MAX_ACTIONS ∧
        actedCount (main_loop b).2.1 = MAX_ACTIONS ∧
        IterEvent.terminalDecision ∉ (main_loop b).2.1 ∧ (main_loop b).2.2 = false) :=
  ⟨main_loop_acted_le, main_loop_raise_wait, main_loop_exhaust⟩

/-- C6 witness: the steady all-clicks behavior reaches the bound and ends
normally. -/
theorem C6_loop_bound_witness :
    (main_loop bSteady).2.1.length = MAX_ACTIONS ∧
      actedCount (main_loop bSteady).2.1 = MAX_ACTIONS ∧
      IterEvent.terminalDecision ∉ (main_loop bSteady).2.1 ∧
      (main_loop bSteady).2.2 = false :=
  C6_loop_bound.2.2 bSteady rfl
    (fun i => ⟨⟨"click"⟩, rfl, by decide,
      show ("click" : String) ≠ "finish" by decide, rfl, rfl⟩)

/-- C7 counterexample: a decision whose text is exactly `finished` is not
treated as terminal — the loop parses and dispatches it as an action (the
Acting phase runs, and fails because `finished` is not a known browser
action), refuting "a finished decision ends the loop without Acting". -/
theorem C7_finished_counterexample :
    (main_loop bFinished).2.1 = [.acted "finished" false] := by decide

/-- C7 (amended): the loop's terminal marker is the exact directive text
`finish` (or an absent directive): whenever iteration `i` decides `finish`
or gets no directive, that iteration records only a terminal decision and
is the last one — no Acting phase runs at or after it. -/
theorem C7_terminal_decision (b : Behavior) (i : Nat) (e : IterEvent)
    (h : (main_loop b).2.1.get? i = some e)
    (hterm : b.nextTask i = none ∨ ∃ d, b.nextTask i = some d ∧ d.action = "finish") :
    e = .terminalDecision ∧ (main_loop b).2.1.length = i + 1 :=
  main_loop_terminal_at b i e h hterm

/-- C7 witness: the immediate-`finish` run ends at iteration 0 with only the
terminal event. -/
theorem C7_terminal_decision_witness :
    IterEvent.terminalDecision = .terminalDecision ∧ (main_loop bFinish).2.1.length = 0 + 1 :=
  C7_terminal_decision bFinish 0 .terminalDecision (by decide)
    (Or.inr ⟨⟨"finish"⟩, rfl, rfl⟩)

/-- C8 counterexample: an iteration whose dispatch fails appends nothing to
the history — after one failed Acting step the recorded action list is
empty, refuting "exactly one history entry is appended per iteration
regardless of the Acting outcome". -/
theorem C8_history_counterexample :
    actedCount (main_loop bFail).2.1 = 1 ∧ (main_loop bFail).1.actions_done = [] := by
  refine ⟨by decide, by decide⟩

/-- C8 (amended): in every run, the recorded history is exactly one entry
per successful iteration: the action type for a successful dispatch, the
literal `finish` for a terminal decision, and nothing for a failed
dispatch; entries are appended in iteration order and never mutated. -/
theorem C8_history_on_success (b : Behavior) :
    (main_loop b).1.actions_done = (main_loop b).2.1.filterMap eventEntry :=
  main_loop_actions b

/-- C9: kind classification is a leading `startswith` test: every string
beginning with `wait` — `waitress` included — parses as a `wait` action
with empty args, and trailing junk after a well-formed argument list is
ignored. -/
theorem C9_prefix_classification :
    (∀ s r : String, isPre "wait".data s.data = true →
      parse_action s r = .ok ⟨"wait", [], r⟩) ∧
    parse_action "waitress" "x" = .ok ⟨"wait", [], "x"⟩ ∧
    parse_action "click(point='(1,2)') trailing junk" "" =
      .ok ⟨"click", [("x", "1"), ("y", "2")], ""⟩ :=
  ⟨parse_action_wait_pre, by decide, by decide⟩

/-- C9 witness: `waitress` starts with `wait` and parses as `wait`. -/
theorem C9_prefix_classification_witness :
    isPre "wait".data ("waitress" : String).data = true ∧
      parse_action "waitress" "x" = .ok ⟨"wait", [], "x"⟩ :=
  ⟨by decide, C9_prefix_classification.1 "waitress" "x" (by decide)⟩

/-- C10 counterexample: when the markers are missing, the `error` action's
reasoning field is not the raw response text — the source first reassigns
`response_text = "temp " + response_text`, so the stored text carries the
`temp ` prefix. -/
theorem C10_vlm_error_counterexample :
    vlm_call_on_response "no markers here" = .ok ⟨"error", [], "temp no markers here"⟩ ∧
      ("temp no markers here" : String) ≠ "no markers here" :=
  ⟨by decide, by decide⟩

/-- C10 (amended): for every response text missing the `Thought: ` or the
`Action: ` marker, `vlm_call` does not raise: it returns an `Action` of
kind `error` — a kind outside the documented enumeration — with empty args
and the `temp `-prefixed (not raw) response text as the reasoning. -/
theorem C10_vlm_error_action (t : String)
    (h : hasSub "Thought: ".data t.data = false ∨ hasSub "Action: ".data t.data = false) :
    vlm_call_on_response t = .ok ⟨"error", [], ⟨"temp ".data ++ t.data⟩⟩ ∧
      ("error" : String) ∉ supportedKinds :=
  ⟨vlm_error_of_missing t h, by decide⟩

/-- C10 witness: a marker-free response yields the `error` action with the
prefixed text. -/
theorem C10_vlm_error_action_witness :
    (hasSub "Thought: ".data ("no markers" : String).data = false ∨
      hasSub "Action: ".data ("no markers" : String).data = false) ∧
    (vlm_call_on_response "no markers" =
        .ok ⟨"error", [], ⟨"temp ".data ++ ("no markers" : String).data⟩⟩ ∧
      ("error" : String) ∉ supportedKinds) :=
  ⟨Or.inl (by decide), C10_vlm_error_action "no markers" (Or.inl (by decide))⟩

end Websight
